import Mathlib

/-!
Verification of the crowd-simulation core (agent state machine, portal/queue
protocol, movement integration, collision resolution) of the market
simulation repository.

The JavaScript source is embedded shallowly:

* `THREE.Vector3` over floats becomes `Vec3` over `ℚ`; `Math.sqrt` becomes
  `ratSqrt` (exact on perfect squares, some rational otherwise — none of the
  verified properties depend on the value of a square root, only the concrete
  evaluation theorems do, and those use perfect-square inputs).
* every call to `Math.random()` is replaced by a value drawn from an `Oracle`
  supplied to the tick; each draw is a rational in `[0, 1)` exactly as
  `Math.random()` guarantees, and theorems quantify over all oracles.
* the `THREE.Raycaster` department-wall query of
  `handleAgentEnvironmentCollisions` is abstracted by an oracle field giving,
  per agent and department, the optional (hit point, hit face normal) pair:
  the collision-response logic downstream of the query is embedded faithfully
  and theorems hold for every possible query result.
* object references (agents in portal queues, an agent's target department /
  portal) become indices into the simulation's lists, as the spec's data
  model prescribes for `AgentRef`.
* mesh, animation-mixer, trail, orientation-quaternion and other
  rendering-only fields are omitted: no claim mentions them and they never
  feed back into simulation state.
-/

namespace MarketSim

/-- Planar 3D vector over the rationals, standing in for `THREE.Vector3`. -/
structure Vec3 where
  x : ℚ
  y : ℚ
  z : ℚ
deriving DecidableEq, Repr

def Vec3.add (v w : Vec3) : Vec3 := ⟨v.x + w.x, v.y + w.y, v.z + w.z⟩

def Vec3.sub (v w : Vec3) : Vec3 := ⟨v.x - w.x, v.y - w.y, v.z - w.z⟩

def Vec3.multiplyScalar (v : Vec3) (s : ℚ) : Vec3 := ⟨v.x * s, v.y * s, v.z * s⟩

def Vec3.negate (v : Vec3) : Vec3 := ⟨-v.x, -v.y, -v.z⟩

def Vec3.dot (v w : Vec3) : ℚ := v.x * w.x + v.y * w.y + v.z * w.z

def Vec3.lengthSq (v : Vec3) : ℚ := v.dot v

/-- Stand-in for `Math.sqrt` on the rationals: exact whenever the argument is
the square of a rational (numerator and denominator of the reduced form are
then perfect squares), and some rational approximation otherwise. No general
theorem below depends on its values. -/
def ratSqrt (q : ℚ) : ℚ := (Nat.sqrt q.num.toNat : ℚ) / (Nat.sqrt q.den : ℚ)

def Vec3.length (v : Vec3) : ℚ := ratSqrt v.lengthSq

/-- `THREE.Vector3.normalize`: `divideScalar(length() || 1)`. -/
def Vec3.normalize (v : Vec3) : Vec3 :=
  v.multiplyScalar (1 / (if v.length = 0 then 1 else v.length))

def Vec3.distanceToSquared (v w : Vec3) : ℚ := (v.sub w).lengthSq

def Vec3.distanceTo (v w : Vec3) : ℚ := ratSqrt (v.distanceToSquared w)

def Vec3.setY (v : Vec3) (a : ℚ) : Vec3 := ⟨v.x, a, v.z⟩

/-- `THREE.Vector3.clampLength(min, max)`:
`divideScalar(length() || 1).multiplyScalar(max(min, min(max, length())))`. -/
def Vec3.clampLength (v : Vec3) (lo hi : ℚ) : Vec3 :=
  let l := v.length
  (v.multiplyScalar (1 / (if l = 0 then 1 else l))).multiplyScalar (max lo (min hi l))

/-- `THREE.Vector3.projectOnPlane(n)`: subtract the projection onto `n`
(the projection is the zero vector when `n` is). -/
def Vec3.projectOnPlane (v n : Vec3) : Vec3 :=
  if n.lengthSq = 0 then v else v.sub (n.multiplyScalar (v.dot n / n.lengthSq))

/-- `Math.sign`. -/
def signQ (q : ℚ) : ℚ := if 0 < q then 1 else if q < 0 then -1 else 0

/-- A `Math.random()` draw: a rational in `[0, 1)`. -/
structure UnitQ where
  val : ℚ
  nonneg : 0 ≤ val
  lt_one : val < 1

/-- `THREE.MathUtils.randFloat(low, high) = low + Math.random() * (high - low)`. -/
def randFloat (lo hi : ℚ) (r : UnitQ) : ℚ := lo + r.val * (hi - lo)

/-- `THREE.MathUtils.randFloatSpread(range) = range * (0.5 - Math.random())`. -/
def randFloatSpread (range : ℚ) (r : UnitQ) : ℚ := range * (0.5 - r.val)

/-! ## Constants of the source (`MODEL_SCALE = 8`) -/

def MODEL_SCALE : ℚ := 8

def MIN_AGENT_SEPARATION : ℚ := MODEL_SCALE * 1.5

def PORTAL_WIDTH_FACTOR : ℚ := MODEL_SCALE * 1.8

def PORTAL_THRESHOLD : ℚ := MODEL_SCALE * 0.6

def AGENT_MOVE_SPEED : ℚ := 1.0 * MODEL_SCALE

def VELOCITY_THRESHOLD_SQ : ℚ := 0.01 * MODEL_SCALE * 0.01 * MODEL_SCALE

def IDLE_CHANCE : ℚ := 0.002

def MIN_IDLE_TIME : ℚ := 2.0

def MAX_IDLE_TIME : ℚ := 6.0

def MIN_TIME_IN_DEPT : ℚ := 8.0

def MAX_TIME_IN_DEPT : ℚ := 20.0

def DEPT_VISIT_CHANCE : ℚ := 0.05

/-! ## Data model -/

/-- The nine agent states of `AGENT_STATE`. -/
inductive AgentState where
  | WANDERING
  | GOING_TO_DEPT
  | WAITING_ENTRY
  | ENTERING
  | INSIDE_DEPT
  | GOING_TO_EXIT
  | WAITING_EXIT
  | EXITING
  | IDLE
deriving DecidableEq, Repr

/-- A portal reference: department index and role (`true` = entry portal). -/
abbrev PortalRef := ℕ × Bool

/-- One agent, as built by `spawnAgents` (rendering-only fields omitted). -/
structure Agent where
  position : Vec3
  velocity : Vec3
  baseHeight : ℚ
  state : AgentState
  idleTimer : ℚ
  timeInDepartment : ℚ
  targetDepartment : Option ℕ
  portalTarget : Option PortalRef
  targetPosition : Option Vec3
  previousState : Option AgentState
deriving DecidableEq, Repr

/-- One portal, as built by `calculatePortalData` (queue holds agent indices). -/
structure Portal where
  worldPos : Vec3
  faceNormal : Vec3
  width : ℚ
  offsetAxisZ : Bool
  isOccupied : Bool
  queue : List ℕ
deriving DecidableEq, Repr

/-- One department: box (center and size) plus its two portals. -/
structure Department where
  center : Vec3
  sizeX : ℚ
  sizeY : ℚ
  sizeZ : ℚ
  entryPortal : Portal
  exitPortal : Portal
deriving DecidableEq, Repr

/-- The module-level mutable simulation state of the source. -/
structure Sim where
  agents : List Agent
  departments : List Department
  speed : ℚ
  isPaused : Bool
  agentCount : ℤ
  modelBaseHeightOffset : ℚ
deriving DecidableEq, Repr

/-- The random draws and raycast answers a single tick consumes, indexed by
agent. `rayHit i k` is the closest-intersection result of
`raycaster.intersectObject(departments[k].mesh)` for agent `i`:
`some (hitPoint, faceNormal)` or `none`. -/
structure Oracle where
  visitRand : ℕ → UnitQ
  deptRand : ℕ → UnitQ
  idleRand : ℕ → UnitQ
  idleTimeRand : ℕ → UnitQ
  dwellRand : ℕ → UnitQ
  insideIdleRand : ℕ → UnitQ
  insideIdleTimeRand : ℕ → UnitQ
  pointXRand : ℕ → UnitQ
  pointZRand : ℕ → UnitQ
  wanderXRand : ℕ → UnitQ
  wanderZRand : ℕ → UnitQ
  spawnXRand : ℕ → UnitQ
  spawnZRand : ℕ → UnitQ
  velXRand : ℕ → UnitQ
  velZRand : ℕ → UnitQ
  velMagRand : ℕ → UnitQ
  rayHit : ℕ → ℕ → Option (Vec3 × Vec3)

/-! ## State accessors and updaters -/

def Sim.agent? (s : Sim) (i : ℕ) : Option Agent := s.agents.get? i

def Sim.dept? (s : Sim) (k : ℕ) : Option Department := s.departments.get? k

def portalOf (d : Department) (isEntry : Bool) : Portal :=
  if isEntry then d.entryPortal else d.exitPortal

def Sim.portal? (s : Sim) (pt : PortalRef) : Option Portal :=
  (s.dept? pt.1).map (fun d => portalOf d pt.2)

def Sim.setAgent (s : Sim) (i : ℕ) (a : Agent) : Sim :=
  { s with agents := s.agents.set i a }

def setPortalIn (d : Department) (isEntry : Bool) (p : Portal) : Department :=
  if isEntry then { d with entryPortal := p } else { d with exitPortal := p }

def Sim.setPortal (s : Sim) (pt : PortalRef) (p : Portal) : Sim :=
  match s.departments.get? pt.1 with
  | none => s
  | some d => { s with departments := s.departments.set pt.1 (setPortalIn d pt.2 p) }

/-- The waiting state that matches a portal role. -/
def waitState (isEntry : Bool) : AgentState :=
  if isEntry then .WAITING_ENTRY else .WAITING_EXIT

/-- The transit state that matches a portal role. -/
def transitState (isEntry : Bool) : AgentState :=
  if isEntry then .ENTERING else .EXITING

/-- `target.clone().sub(position).setY(0).normalize().multiplyScalar(sp)` —
the velocity-aiming idiom used throughout `updateAgentState`. -/
def velocityToward (sp : ℚ) (source target : Vec3) : Vec3 :=
  (((target.sub source).setY 0).normalize).multiplyScalar sp

/-- `new Vector3(randFloatSpread(1), 0, randFloatSpread(1)).normalize().multiplyScalar(sp)`. -/
def randWanderVelocity (rx rz : UnitQ) (sp : ℚ) : Vec3 :=
  ((Vec3.mk (randFloatSpread 1 rx) 0 (randFloatSpread 1 rz)).normalize).multiplyScalar sp

/-- `getRandomPointInDepartment`. -/
def getRandomPointInDepartment (rx rz : UnitQ) (floorY : ℚ) (d : Department) : Option Vec3 :=
  let padding := MODEL_SCALE * 1.5
  if d.sizeX ≤ padding * 2 ∨ d.sizeZ ≤ padding * 2 then none
  else some ⟨d.center.x + randFloatSpread (d.sizeX - padding * 2) rx, floorY,
             d.center.z + randFloatSpread (d.sizeZ - padding * 2) rz⟩

/-! ## `updateAgentState`, one function per `case` of the source's `switch` -/

/-- `case AGENT_STATE.IDLE`. -/
def stepIdle (o : Oracle) (delta : ℚ) (i : ℕ) (a : Agent) (s : Sim) : Sim :=
  let t := a.idleTimer - delta
  if t ≤ 0 then
    let st := a.previousState.getD .WANDERING
    let a1 := { a with idleTimer := t, state := st }
    let a2 :=
      match a1.portalTarget with
      | some pt =>
        match s.portal? pt with
        | some p => { a1 with velocity := velocityToward AGENT_MOVE_SPEED a1.position p.worldPos }
        | none => a1
      | none =>
        match a1.targetPosition with
        | some tp => { a1 with velocity := velocityToward (AGENT_MOVE_SPEED * 0.7) a1.position tp }
        | none =>
          if st = .WANDERING then
            { a1 with velocity := randWanderVelocity (o.wanderXRand i) (o.wanderZRand i) AGENT_MOVE_SPEED }
          else a1
    s.setAgent i a2
  else s.setAgent i { a with idleTimer := t }

/-- `case AGENT_STATE.WANDERING`. -/
def stepWandering (o : Oracle) (delta : ℚ) (i : ℕ) (a : Agent) (s : Sim) : Sim :=
  if (o.visitRand i).val < DEPT_VISIT_CHANCE * delta then
    let k := (⌊(o.deptRand i).val * s.departments.length⌋).toNat
    match s.dept? k with
    | some d =>
      s.setAgent i { a with targetDepartment := some k, portalTarget := some (k, true),
                            state := .GOING_TO_DEPT,
                            velocity := velocityToward AGENT_MOVE_SPEED a.position d.entryPortal.worldPos }
    | none => s.setAgent i { a with targetDepartment := none }
  else if (o.idleRand i).val < IDLE_CHANCE * delta then
    s.setAgent i { a with previousState := some .WANDERING, state := .IDLE,
                          idleTimer := randFloat MIN_IDLE_TIME MAX_IDLE_TIME (o.idleTimeRand i),
                          velocity := ⟨0, 0, 0⟩ }
  else s

/-- `case AGENT_STATE.GOING_TO_DEPT`. -/
def stepGoingToDept (i : ℕ) (a : Agent) (s : Sim) : Sim :=
  match a.portalTarget, a.targetDepartment with
  | some pt, some _ =>
    match s.portal? pt with
    | some p =>
      if a.position.distanceTo p.worldPos < PORTAL_THRESHOLD then
        if p.isOccupied then
          (s.setPortal pt { p with queue := p.queue ++ [i] }).setAgent i
            { a with state := .WAITING_ENTRY, velocity := ⟨0, 0, 0⟩ }
        else
          (s.setPortal pt { p with isOccupied := true }).setAgent i
            { a with state := .ENTERING,
                     velocity := (p.faceNormal.negate).multiplyScalar (AGENT_MOVE_SPEED * 0.8) }
      else
        s.setAgent i { a with velocity := velocityToward AGENT_MOVE_SPEED a.position p.worldPos }
    | none => s
  | _, _ => s.setAgent i { a with state := .WANDERING }

/-- `case AGENT_STATE.ENTERING`. -/
def stepEntering (o : Oracle) (i : ℕ) (a : Agent) (s : Sim) : Sim :=
  match a.portalTarget, a.targetDepartment with
  | some pt, some td =>
    match s.portal? pt, s.dept? td with
    | some p, some d =>
      let distToPortalPlane := (a.position.sub p.worldPos).dot p.faceNormal
      if distToPortalPlane < -(MODEL_SCALE * 0.5) then
        let tpos := getRandomPointInDepartment (o.pointXRand i) (o.pointZRand i)
          s.modelBaseHeightOffset d
        let a1 := { a with state := .INSIDE_DEPT, portalTarget := none,
                           timeInDepartment := randFloat MIN_TIME_IN_DEPT MAX_TIME_IN_DEPT (o.dwellRand i),
                           targetPosition := tpos }
        let a2 :=
          match tpos with
          | some tp => { a1 with velocity := velocityToward (AGENT_MOVE_SPEED * 0.7) a.position tp }
          | none => { a1 with velocity := randWanderVelocity (o.wanderXRand i) (o.wanderZRand i) (AGENT_MOVE_SPEED * 0.5) }
        (s.setPortal pt { p with isOccupied := false }).setAgent i a2
      else s
    | _, _ => s
  | _, _ => s.setAgent i { a with state := .WANDERING }

/-- `case AGENT_STATE.INSIDE_DEPT`. -/
def stepInsideDept (o : Oracle) (delta : ℚ) (i : ℕ) (a : Agent) (s : Sim) : Sim :=
  let a0 := { a with timeInDepartment := a.timeInDepartment - delta }
  if a0.idleTimer ≤ 0 ∧ (o.insideIdleRand i).val < IDLE_CHANCE * delta * 1.5 then
    s.setAgent i { a0 with previousState := some .INSIDE_DEPT, state := .IDLE,
                           idleTimer := randFloat MIN_IDLE_TIME MAX_IDLE_TIME (o.insideIdleTimeRand i),
                           velocity := ⟨0, 0, 0⟩ }
  else
    let a1 :=
      match a0.targetPosition with
      | some tp0 =>
        let a01 :=
          if a0.position.distanceTo tp0 < MODEL_SCALE then
            match a0.targetDepartment with
            | some td =>
              match s.dept? td with
              | some d =>
                { a0 with targetPosition := getRandomPointInDepartment (o.pointXRand i) (o.pointZRand i) s.modelBaseHeightOffset d }
              | none => a0
            | none => a0
          else a0
        match a01.targetPosition with
        | some tp1 => { a01 with velocity := velocityToward (AGENT_MOVE_SPEED * 0.7) a01.position tp1 }
        | none => a01
      | none => a0
    if a1.timeInDepartment ≤ 0 then
      match a1.targetDepartment with
      | some td =>
        match s.dept? td with
        | some d =>
          s.setAgent i { a1 with portalTarget := some (td, false), state := .GOING_TO_EXIT,
                                 velocity := velocityToward AGENT_MOVE_SPEED a1.position d.exitPortal.worldPos,
                                 targetPosition := none }
        | none => s.setAgent i a1
      | none => s.setAgent i a1
    else s.setAgent i a1

/-- `case AGENT_STATE.GOING_TO_EXIT`. -/
def stepGoingToExit (i : ℕ) (a : Agent) (s : Sim) : Sim :=
  match a.portalTarget, a.targetDepartment with
  | some pt, some _ =>
    match s.portal? pt with
    | some p =>
      if a.position.distanceTo p.worldPos < PORTAL_THRESHOLD then
        if p.isOccupied then
          (s.setPortal pt { p with queue := p.queue ++ [i] }).setAgent i
            { a with state := .WAITING_EXIT, velocity := ⟨0, 0, 0⟩ }
        else
          (s.setPortal pt { p with isOccupied := true }).setAgent i
            { a with state := .EXITING,
                     velocity := p.faceNormal.multiplyScalar AGENT_MOVE_SPEED }
      else
        s.setAgent i { a with velocity := velocityToward AGENT_MOVE_SPEED a.position p.worldPos }
    | none => s
  | _, _ => s.setAgent i { a with state := .WANDERING }

/-- `case AGENT_STATE.EXITING`. -/
def stepExiting (o : Oracle) (i : ℕ) (a : Agent) (s : Sim) : Sim :=
  match a.portalTarget, a.targetDepartment with
  | some pt, some _ =>
    match s.portal? pt with
    | some p =>
      let distToExitPortalPlane := (a.position.sub p.worldPos).dot p.faceNormal
      if distToExitPortalPlane > MODEL_SCALE * 0.5 then
        (s.setPortal pt { p with isOccupied := false }).setAgent i
          { a with state := .WANDERING, portalTarget := none, targetDepartment := none,
                   velocity := randWanderVelocity (o.wanderXRand i) (o.wanderZRand i) AGENT_MOVE_SPEED }
      else s
    | none => s
  | _, _ => s.setAgent i { a with state := .WANDERING }

/-- `case AGENT_STATE.WAITING_ENTRY` and `WAITING_EXIT`: stay stopped. -/
def stepWaiting (i : ℕ) (a : Agent) (s : Sim) : Sim :=
  s.setAgent i { a with velocity := ⟨0, 0, 0⟩ }

/-- `updateAgentState(agent, delta)`, dispatching on the agent's state. -/
def updateAgentState (o : Oracle) (delta : ℚ) (s : Sim) (i : ℕ) : Sim :=
  match s.agent? i with
  | none => s
  | some a =>
    match a.state with
    | .IDLE => stepIdle o delta i a s
    | .WANDERING => stepWandering o delta i a s
    | .GOING_TO_DEPT => stepGoingToDept i a s
    | .ENTERING => stepEntering o i a s
    | .INSIDE_DEPT => stepInsideDept o delta i a s
    | .GOING_TO_EXIT => stepGoingToExit i a s
    | .EXITING => stepExiting o i a s
    | .WAITING_ENTRY => stepWaiting i a s
    | .WAITING_EXIT => stepWaiting i a s

/-! ## `updateAgentMovement` -/

/-- The three states in which the movement integrator holds the agent still. -/
def heldState (st : AgentState) : Prop :=
  st = .IDLE ∨ st = .WAITING_ENTRY ∨ st = .WAITING_EXIT

instance (st : AgentState) : Decidable (heldState st) := by
  unfold heldState; infer_instance

/-- `updateAgentMovement(agent, delta, effectiveSpeedFactor)`: integrate
velocity (unless held) and pin `position.y` to the agent's floor height.
The orientation slerp of the source only touches the rendering quaternion
and is omitted. -/
def updateAgentMovement (f : ℚ) (s : Sim) (i : ℕ) : Sim :=
  match s.agent? i with
  | none => s
  | some a =>
    let a1 := if heldState a.state then a
              else { a with position := a.position.add (a.velocity.multiplyScalar f) }
    s.setAgent i { a1 with position := a1.position.setY a.baseHeight }

/-! ## `handleAgentEnvironmentCollisions` -/

def floorHalfWidth : ℚ := 800 / 2

def floorHalfDepth : ℚ := 500 / 2

def checkRadius : ℚ := MODEL_SCALE * 0.5

/-- `isPointOnPortal(point, portal)`. -/
def isPointOnPortal (point : Vec3) (portal : Portal) : Bool :=
  let portalLineDir : Vec3 := if portal.offsetAxisZ then ⟨0, 0, 1⟩ else ⟨1, 0, 0⟩
  let portalStart := portal.worldPos.add (portalLineDir.multiplyScalar (-(portal.width / 2)))
  let portalEnd := portal.worldPos.add (portalLineDir.multiplyScalar (portal.width / 2))
  let lineVec := portalEnd.sub portalStart
  let pointVec := point.sub portalStart
  let lineLenSq := lineVec.lengthSq
  if lineLenSq < 0.0001 then false
  else
    let t := pointVec.dot lineVec / lineLenSq
    let closestPointOnLine := portalStart.add (lineVec.multiplyScalar t)
    let distSq := point.distanceToSquared closestPointOnLine
    decide (0 ≤ t ∧ t ≤ 1 ∧ distSq < 0.5 * 0.5)

/-- The floor-boundary check of `handleAgentEnvironmentCollisions`:
invert the offending velocity component, clamp the position onto the
boundary, and report whether a bounce happened. -/
def boundaryBounce (a : Agent) : Agent × Bool :=
  let step1 :=
    if |a.position.x| > floorHalfWidth - checkRadius then
      ({ a with velocity := { a.velocity with x := a.velocity.x * (-1) },
                position := { a.position with x := signQ a.position.x * (floorHalfWidth - checkRadius) } },
       true)
    else (a, false)
  let a1 := step1.1
  if |a1.position.z| > floorHalfDepth - checkRadius then
    ({ a1 with velocity := { a1.velocity with z := a1.velocity.z * (-1) },
               position := { a1.position with z := signQ a1.position.z * (floorHalfDepth - checkRadius) } },
     true)
  else (a1, step1.2)

/-- The four in-transit goal states of the floor-boundary fallback check. -/
def transitGoalState (st : AgentState) : Prop :=
  st = .GOING_TO_DEPT ∨ st = .ENTERING ∨ st = .GOING_TO_EXIT ∨ st = .EXITING

instance (st : AgentState) : Decidable (transitGoalState st) := by
  unfold transitGoalState; infer_instance

/-- Release the portal an in-transit agent holds, exactly as the guarded
`agent.portalTarget.isOccupied = false` of the boundary/wall fallback. -/
def releaseHeldPortal (a : Agent) (s : Sim) : Sim :=
  match a.portalTarget with
  | some pt =>
    if a.state = .ENTERING ∨ a.state = .EXITING then
      match s.portal? pt with
      | some p => if p.isOccupied then s.setPortal pt { p with isOccupied := false } else s
      | none => s
    else s
  | none => s

/-- One department of the wall-collision `departments.forEach` loop (a `return`
inside a JavaScript `forEach` callback only skips to the next department). -/
def deptCollisionStep (o : Oracle) (i : ℕ) (s : Sim) (k : ℕ) : Sim :=
  match s.agent? i, s.dept? k with
  | some a, some d =>
    match o.rayHit i k with
    | none => s
    | some (hitPoint, hitNormal) =>
      let tp? : Option PortalRef :=
        if a.state = .GOING_TO_DEPT ∨ a.state = .ENTERING ∨ a.state = .WAITING_ENTRY then
          if a.targetDepartment = some k then some (k, true) else none
        else if a.state = .GOING_TO_EXIT ∨ a.state = .EXITING ∨ a.state = .WAITING_EXIT then
          if a.targetDepartment = some k then some (k, false) else none
        else none
      let allowPassage : Bool :=
        match tp? with
        | some tpp =>
          let prt := portalOf d tpp.2
          decide (hitNormal = prt.faceNormal) && isPointOnPortal hitPoint prt
        | none => false
      if allowPassage then s
      else
        -- slide along the wall, nudge outward, re-clamp the height
        let v1 := a.velocity.projectOnPlane hitNormal
        -- `hitNormal.multiplyScalar(nudgeDistance)` mutates `hitNormal` in the source
        let hitNormal1 := hitNormal.multiplyScalar 0.1
        let a1 := { a with velocity := v1,
                           position := (a.position.add hitNormal1).setY a.baseHeight }
        match tp? with
        | none => s.setAgent i a1
        | some _ =>
          let s1 := releaseHeldPortal a s
          let hitNormal2 := hitNormal1.multiplyScalar 0.5
          s1.setAgent i
            { a1 with state := .WANDERING, targetDepartment := none, portalTarget := none,
                      targetPosition := none,
                      velocity := ((v1.add hitNormal2).normalize).multiplyScalar (AGENT_MOVE_SPEED * 0.5) }
  | _, _ => s

/-- The fallback shape shared by the boundary and wall resets: revert to
`WANDERING` and clear every target reference. -/
def resetToWandering (a : Agent) : Agent :=
  { a with state := .WANDERING, targetDepartment := none, portalTarget := none,
           targetPosition := none }

/-- The floor-boundary phase of `handleAgentEnvironmentCollisions` for one
agent: bounce, then the `WANDERING` fallback with portal release when the
agent was pursuing an in-transit goal. -/
def boundaryPhase (s : Sim) (i : ℕ) (a : Agent) : Sim :=
  let bb := boundaryBounce a
  let a1 := bb.1
  if bb.2 = true ∧ transitGoalState a1.state then
    (releaseHeldPortal a1 s).setAgent i
      { a1 with state := .WANDERING, targetDepartment := none, portalTarget := none,
                targetPosition := none }
  else s.setAgent i a1

/-- `handleAgentEnvironmentCollisions(agent, delta, effectiveSpeedFactor)`:
floor-boundary pass with `WANDERING` fallback, then the per-department
wall/portal pass (skipped below the velocity threshold). -/
def handleAgentEnvironmentCollisions (o : Oracle) (s : Sim) (i : ℕ) : Sim :=
  match s.agent? i with
  | none => s
  | some a =>
    let s1 := boundaryPhase s i a
    match s1.agent? i with
    | none => s1
    | some a2 =>
      if a2.velocity.lengthSq < VELOCITY_THRESHOLD_SQ then s1
      else (List.range s1.departments.length).foldl (deptCollisionStep o i) s1

/-! ## `handleAgentAgentCollisions` -/

/-- One unordered pair of the agent-agent separation pass. The stale value of
the in-place mutated `collisionNormal` at each use site of the source is
tracked explicitly (`cn1`, `cn2`). -/
def pairCollisionStep (s : Sim) (i j : ℕ) : Sim :=
  match s.agent? i, s.agent? j with
  | some a, some b =>
    if a.state = .WAITING_ENTRY ∨ a.state = .WAITING_EXIT ∨
       b.state = .WAITING_ENTRY ∨ b.state = .WAITING_EXIT then s
    else
      let distanceSq := a.position.distanceToSquared b.position
      if distanceSq < MIN_AGENT_SEPARATION * MIN_AGENT_SEPARATION then
        let distance := ratSqrt distanceSq
        let cn0 := ((a.position.sub b.position)).normalize
        let overlap := MIN_AGENT_SEPARATION - distance
        let pushFactor := overlap * 0.5
        let vA := (a.velocity.add (cn0.multiplyScalar pushFactor)).clampLength 0 (AGENT_MOVE_SPEED * 1.5)
        let cn1 := (cn0.negate).multiplyScalar pushFactor
        let vB := (b.velocity.add cn1).clampLength 0 (AGENT_MOVE_SPEED * 1.5)
        let nudgeAmount := overlap / 2 + 0.01
        let pA := (a.position.add (cn1.multiplyScalar nudgeAmount)).setY a.baseHeight
        let cn2 := (cn1.negate).multiplyScalar nudgeAmount
        let pB := (b.position.add cn2).setY b.baseHeight
        (s.setAgent i { a with velocity := vA, position := pA }).setAgent j
          { b with velocity := vB, position := pB }
      else s
  | _, _ => s

/-- `handleAgentAgentCollisions()`: the O(n²) sweep over ordered index pairs. -/
def handleAgentAgentCollisions (s : Sim) : Sim :=
  let n := s.agents.length
  (List.range n).foldl
    (fun s1 i => ((List.range n).drop (i + 1)).foldl (fun s2 j => pairCollisionStep s2 i j) s1) s

/-! ## `processPortalQueues` -/

/-- Processing of one portal inside `processPortalQueues`: when unoccupied
with a non-empty queue, `shift` the front agent; promote it if it is in the
matching waiting state, otherwise failsafe it to `WANDERING`. -/
def processQueueStep (s : Sim) (k : ℕ) (isEntry : Bool) : Sim :=
  match s.portal? (k, isEntry) with
  | none => s
  | some p =>
    if p.isOccupied then s
    else
      match p.queue with
      | [] => s
      | j :: rest =>
        match s.agent? j with
        | none => s.setPortal (k, isEntry) { p with queue := rest }
        | some b =>
          if b.state = waitState isEntry then
            (s.setPortal (k, isEntry) { p with queue := rest, isOccupied := true }).setAgent j
              { b with state := transitState isEntry,
                       velocity :=
                         if isEntry then (p.faceNormal.negate).multiplyScalar (AGENT_MOVE_SPEED * 0.8)
                         else p.faceNormal.multiplyScalar AGENT_MOVE_SPEED }
          else
            (s.setPortal (k, isEntry) { p with queue := rest }).setAgent j
              { b with state := .WANDERING }

/-- `processPortalQueues()`: for each department in order, the entry queue
then the exit queue. -/
def processPortalQueues (s : Sim) : Sim :=
  (List.range s.departments.length).foldl
    (fun s1 k => processQueueStep (processQueueStep s1 k true) k false) s

/-! ## `updateAgents` (the tick) -/

/-- The per-agent body of the `agents.forEach` sweep: state machine, movement,
environment collisions (animation and trail updates are rendering-only). -/
def agentSweepStep (o : Oracle) (delta f : ℚ) (s : Sim) (i : ℕ) : Sim :=
  handleAgentEnvironmentCollisions o (updateAgentMovement f (updateAgentState o delta s i) i) i

/-- `updateAgents(delta)`: no-op while paused or without departments, else
agent-agent pass, per-agent sweep, queue processing. -/
def updateAgents (o : Oracle) (delta : ℚ) (s : Sim) : Sim :=
  if s.isPaused = true ∨ s.departments.length = 0 then s
  else
    let f := s.speed * delta
    let s1 := handleAgentAgentCollisions s
    let s2 := (List.range s1.agents.length).foldl (agentSweepStep o delta f) s1
    processPortalQueues s2

/-- `setPaused`: the UI layer's write of the `isPaused` flag (spec §6;
`toggleSimulation` and `resetScene` write this module-level flag). -/
def setPaused (b : Bool) (s : Sim) : Sim := { s with isPaused := b }

/-! ## `spawnAgents` and `resetScene` -/

/-- One agent of the `spawnAgents` loop body. -/
def spawnAgent (o : Oracle) (baseY : ℚ) (i : ℕ) : Agent :=
  let x := randFloatSpread 780 (o.spawnXRand i)
  let z := randFloatSpread 480 (o.spawnZRand i)
  let vx := randFloatSpread 1 (o.velXRand i)
  let vz := randFloatSpread 1 (o.velZRand i)
  { position := ⟨x, baseY, z⟩,
    velocity := ((Vec3.mk vx 0 vz).normalize).multiplyScalar
      (AGENT_MOVE_SPEED * randFloat 0.8 1.2 (o.velMagRand i)),
    baseHeight := baseY, state := .WANDERING, idleTimer := 0, timeInDepartment := 0,
    targetDepartment := none, portalTarget := none, targetPosition := none,
    previousState := none }

/-- `spawnAgents(n)` after the existing agents were cleared: the
`for (let i = 0; i < n; i++)` loop. -/
def spawnAgents (o : Oracle) (baseY : ℚ) (n : ℕ) : List Agent :=
  (List.range n).map (spawnAgent o baseY)

/-- Clearing of one department's queues/occupancy in `resetScene`. -/
def clearDeptQueues (d : Department) : Department :=
  { d with entryPortal := { d.entryPortal with queue := [], isOccupied := false },
           exitPortal := { d.exitPortal with queue := [], isOccupied := false } }

/-- `resetScene(newCount)`. `newCount = none` models a missing or `NaN`
argument; `uiCount` is the result of `parseInt(countInput.value, 10)` when
the count input exists and parses (`none` otherwise); the `|| 25` of the
source sends both a failed parse and a parsed `0` to the default `25`.
The spawn loop `for (let i = 0; i < n; i++)` over an integer `n` runs
`n.toNat` times. -/
def resetScene (o : Oracle) (newCount : Option ℤ) (uiCount : Option ℤ) (s : Sim) : Sim :=
  let count : ℤ :=
    match newCount with
    | some n => max 1 n
    | none =>
      match uiCount with
      | some k => if k = 0 then 25 else k
      | none => 25
  { s with agents := spawnAgents o s.modelBaseHeightOffset count.toNat,
           departments := s.departments.map clearDeptQueues,
           agentCount := count,
           isPaused := false }

/-! ## The reachability invariant for the portal protocol -/

/-- The state-machine core of an agent: the fields the portal protocol
invariant speaks about (everything except positions, velocities and timers). -/
def Agent.core (a : Agent) : AgentState × Option ℕ × Option PortalRef × Option AgentState :=
  (a.state, a.targetDepartment, a.portalTarget, a.previousState)

/-- Per-agent well-formedness: target references present and in range as the
agent's state demands, and `previousState` restricted to the two states the
source ever records before idling. -/
def AgentOk (D : ℕ) (a : Agent) : Prop :=
  match a.state with
  | .GOING_TO_DEPT | .WAITING_ENTRY | .ENTERING =>
    ∃ k, k < D ∧ a.targetDepartment = some k ∧ a.portalTarget = some (k, true)
  | .GOING_TO_EXIT | .WAITING_EXIT | .EXITING =>
    ∃ k, k < D ∧ a.targetDepartment = some k ∧ a.portalTarget = some (k, false)
  | .INSIDE_DEPT => ∃ k, k < D ∧ a.targetDepartment = some k
  | .IDLE =>
    (a.previousState = none ∨ a.previousState = some .WANDERING ∨
      a.previousState = some .INSIDE_DEPT) ∧
    (a.previousState = some .INSIDE_DEPT → ∃ k, k < D ∧ a.targetDepartment = some k)
  | .WANDERING => True

/-- The inductive invariant of the portal/queue protocol. -/
structure Inv (s : Sim) : Prop where
  agentOk : ∀ i a, s.agent? i = some a → AgentOk s.departments.length a
  queueMem : ∀ pt p, s.portal? pt = some p → ∀ j ∈ p.queue,
    ∃ b, s.agent? j = some b ∧ b.state = waitState pt.2 ∧ b.portalTarget = some pt
  queueNodup : ∀ pt p, s.portal? pt = some p → p.queue.Nodup
  occupiedSome : ∀ pt p, s.portal? pt = some p → p.isOccupied = true →
    ∃ i a, s.agent? i = some a ∧ a.state = transitState pt.2 ∧ a.portalTarget = some pt ∧
      ∀ j b, s.agent? j = some b → b.state = transitState pt.2 → b.portalTarget = some pt → j = i
  occupiedNone : ∀ pt p, s.portal? pt = some p → p.isOccupied = false →
    ∀ j b, s.agent? j = some b → ¬(b.state = transitState pt.2 ∧ b.portalTarget = some pt)

/-- An agent as `spawnAgents` creates it (ignoring position/velocity). -/
def FreshAgent (a : Agent) : Prop :=
  a.state = .WANDERING ∧ a.targetDepartment = none ∧ a.portalTarget = none ∧
  a.previousState = none

instance (a : Agent) : Decidable (FreshAgent a) := by
  unfold FreshAgent; infer_instance

/-- A portal as `calculatePortalData` (or a `resetScene` queue purge) leaves it. -/
def ClearPortal (p : Portal) : Prop := p.isOccupied = false ∧ p.queue = []

instance (p : Portal) : Decidable (ClearPortal p) := by
  unfold ClearPortal; infer_instance

/-- A simulation state as produced by initialization, `resetScene`, or
`switchLayout`: freshly spawned agents, clear portals (any departments,
speed, pause flag). -/
def Fresh (s : Sim) : Prop :=
  (∀ a ∈ s.agents, FreshAgent a) ∧
  ∀ d ∈ s.departments, ClearPortal d.entryPortal ∧ ClearPortal d.exitPortal

instance (s : Sim) : Decidable (Fresh s) := by
  unfold Fresh; infer_instance

/-- States reachable by the simulation: start from any fresh state and apply
ticks and the UI's speed/pause writes (`resetScene`/`switchLayout` land in
fresh states again). -/
inductive Reachable : Sim → Prop where
  | init (s : Sim) : Fresh s → Reachable s
  | tick (o : Oracle) (delta : ℚ) (s : Sim) : Reachable s → Reachable (updateAgents o delta s)
  | speedChange (q : ℚ) (s : Sim) : Reachable s → Reachable { s with speed := q }
  | pauseChange (b : Bool) (s : Sim) : Reachable s → Reachable (setPaused b s)

/-- The portal occupancy exclusivity property of the spec: `occupied = true`
means exactly one agent is in the matching transit state targeting that
portal, `occupied = false` means none is. -/
def PortalExclusive (s : Sim) : Prop :=
  ∀ pt p, s.portal? pt = some p →
    (p.isOccupied = true →
      ∃ i a, s.agent? i = some a ∧ a.state = transitState pt.2 ∧ a.portalTarget = some pt ∧
        ∀ j b, s.agent? j = some b → b.state = transitState pt.2 → b.portalTarget = some pt →
          j = i) ∧
    (p.isOccupied = false →
      ∀ j b, s.agent? j = some b → ¬(b.state = transitState pt.2 ∧ b.portalTarget = some pt))


/-! ## C1 machinery: waiting/transit classification and core-skeleton equality -/

def isWaiting (st : AgentState) : Prop :=
  st = .WAITING_ENTRY ∨ st = .WAITING_EXIT

def isTransit (st : AgentState) : Prop :=
  st = .ENTERING ∨ st = .EXITING

def WaitVelOk (a : Agent) : Prop := isWaiting a.state → a.velocity = ⟨0, 0, 0⟩

def SkeletonEq (s s' : Sim) : Prop :=
  s'.departments = s.departments ∧
  ∀ j, (s'.agent? j).map Agent.core = (s.agent? j).map Agent.core

/-! ## Concrete states used by scenario and witness theorems -/

/-- A fixed `Math.random()` draw of one half. -/
def halfU : UnitQ := ⟨1/2, by norm_num, by norm_num⟩

/-- An oracle whose draws are all one half and whose raycast reports no
department intersections. -/
def defaultOracle : Oracle :=
  { visitRand := fun _ => halfU, deptRand := fun _ => halfU, idleRand := fun _ => halfU,
    idleTimeRand := fun _ => halfU, dwellRand := fun _ => halfU, insideIdleRand := fun _ => halfU,
    insideIdleTimeRand := fun _ => halfU, pointXRand := fun _ => halfU, pointZRand := fun _ => halfU,
    wanderXRand := fun _ => halfU, wanderZRand := fun _ => halfU, spawnXRand := fun _ => halfU,
    spawnZRand := fun _ => halfU, velXRand := fun _ => halfU, velZRand := fun _ => halfU,
    velMagRand := fun _ => halfU, rayHit := fun _ _ => none }

/-- A portal at floor height 10 with the given wall point and outward normal. -/
def mkPortal (wx wz : ℚ) (n : Vec3) (axZ : Bool) : Portal :=
  { worldPos := ⟨wx, 10, wz⟩, faceNormal := n, width := PORTAL_WIDTH_FACTOR,
    offsetAxisZ := axZ, isOccupied := false, queue := [] }

/-- The three departments of the source's baseline layout (portal positions
and normals computed by `calculatePortalData` from the layout table), with
floor height 10. -/
def baselineDepartments : List Department :=
  [ { center := ⟨-110, 10, 130⟩, sizeX := 180, sizeY := 80, sizeZ := 90,
      entryPortal := mkPortal (-150) 85 ⟨0, 0, -1⟩ false,
      exitPortal := mkPortal (-70) 85 ⟨0, 0, -1⟩ false },
    { center := ⟨110, 10, 130⟩, sizeX := 180, sizeY := 80, sizeZ := 90,
      entryPortal := mkPortal 20 130 ⟨-1, 0, 0⟩ true,
      exitPortal := mkPortal 110 85 ⟨0, 0, -1⟩ false },
    { center := ⟨0, 10, -130⟩, sizeX := 380, sizeY := 80, sizeZ := 90,
      entryPortal := mkPortal 190 (-190) ⟨1, 0, 0⟩ true,
      exitPortal := mkPortal 190 (-70) ⟨1, 0, 0⟩ true } ]

/-- A freshly spawned wandering agent at the given planar position with the
given velocity, floor height 10. -/
def mkAgent (px pz vx vz : ℚ) : Agent :=
  { position := ⟨px, 10, pz⟩, velocity := ⟨vx, 0, vz⟩, baseHeight := 10, state := .WANDERING,
    idleTimer := 0, timeInDepartment := 0, targetDepartment := none, portalTarget := none,
    targetPosition := none, previousState := none }

/-- The §8 boundary scenario: one agent at `(399, h, 0)` with velocity
`(5, 0, 0)` on the baseline layout, speed multiplier 1. -/
def simBoundary : Sim :=
  { agents := [mkAgent 399 0 5 0], departments := baselineDepartments, speed := 1,
    isPaused := false, agentCount := 1, modelBaseHeightOffset := 10 }

/-- Two wandering agents 10 units apart (below the separation threshold 12),
both at rest: the failing input of the agent-agent positional nudge. -/
def simOverlapPair : Sim :=
  { agents := [mkAgent 5 0 0 0, mkAgent (-5) 0 0 0], departments := baselineDepartments,
    speed := 1, isPaused := false, agentCount := 2, modelBaseHeightOffset := 10 }

/-- A department whose entry queue holds a stale entry (agent 0, no longer
waiting) in front of a proper waiter (agent 1). -/
def deptStaleQueue : Department :=
  { center := ⟨-110, 10, 130⟩, sizeX := 180, sizeY := 80, sizeZ := 90,
    entryPortal := { mkPortal (-150) 85 ⟨0, 0, -1⟩ false with queue := [0, 1] },
    exitPortal := mkPortal (-70) 85 ⟨0, 0, -1⟩ false }

/-- A stale queue entry: agent 0 reverted to `WANDERING` while still queued. -/
def agentStale : Agent := { mkAgent 0 0 0 0 with portalTarget := some (0, true) }

/-- A proper waiter behind the stale entry. -/
def agentWaiter : Agent :=
  { mkAgent (-150) 90 0 0 with state := .WAITING_ENTRY, portalTarget := some (0, true),
                               targetDepartment := some 0 }

/-- The stale-queue scenario: agent 0 reverted to `WANDERING` while still
queued, agent 1 properly `WAITING_ENTRY` behind it, portal unoccupied. -/
def simStaleQueue : Sim :=
  { agents := [agentStale, agentWaiter], departments := [deptStaleQueue], speed := 1,
    isPaused := false, agentCount := 2, modelBaseHeightOffset := 10 }

/-- An `ENTERING` agent holding department 0's entry portal while out of
bounds (`x = 399 > 396`). -/
def agentEnteringOOB : Agent :=
  { mkAgent 399 0 5 0 with state := .ENTERING, portalTarget := some (0, true),
                           targetDepartment := some 0 }

/-- Department 0 with its entry portal occupied (held by the agent above). -/
def deptOccupiedEntry : Department :=
  { center := ⟨-110, 10, 130⟩, sizeX := 180, sizeY := 80, sizeZ := 90,
    entryPortal := { mkPortal (-150) 85 ⟨0, 0, -1⟩ false with isOccupied := true },
    exitPortal := mkPortal (-70) 85 ⟨0, 0, -1⟩ false }

/-- The boundary-fallback scenario: the transiting agent is about to bounce. -/
def simEnteringOOB : Sim :=
  { agents := [agentEnteringOOB], departments := [deptOccupiedEntry], speed := 1,
    isPaused := false, agentCount := 1, modelBaseHeightOffset := 10 }

/-! # Lemmas

## Accessor and setter laws -/

lemma Sim.agent?_lt_length {s : Sim} {i : ℕ} {a : Agent} (h : s.agent? i = some a) :
    i < s.agents.length :=
  (List.get?_eq_some.mp h).1

@[simp] lemma Sim.length_agents_setAgent (s : Sim) (i : ℕ) (a : Agent) :
    (s.setAgent i a).agents.length = s.agents.length := by
  simp [Sim.setAgent]

@[simp] lemma Sim.departments_setAgent (s : Sim) (i : ℕ) (a : Agent) :
    (s.setAgent i a).departments = s.departments := rfl

@[simp] lemma Sim.dept?_setAgent (s : Sim) (i : ℕ) (a : Agent) (k : ℕ) :
    (s.setAgent i a).dept? k = s.dept? k := rfl

@[simp] lemma Sim.portal?_setAgent (s : Sim) (i : ℕ) (a : Agent) (pt : PortalRef) :
    (s.setAgent i a).portal? pt = s.portal? pt := rfl

@[simp] lemma Sim.speed_setAgent (s : Sim) (i : ℕ) (a : Agent) :
    (s.setAgent i a).speed = s.speed := rfl

@[simp] lemma Sim.isPaused_setAgent (s : Sim) (i : ℕ) (a : Agent) :
    (s.setAgent i a).isPaused = s.isPaused := rfl

lemma Sim.agent?_setAgent_self {s : Sim} {i : ℕ} {b : Agent} (a : Agent)
    (h : s.agent? i = some b) : (s.setAgent i a).agent? i = some a := by
  simpa [Sim.setAgent, Sim.agent?] using
    List.get?_set_eq_of_lt a (s.agent?_lt_length h)

lemma Sim.agent?_setAgent_ne (s : Sim) {i j : ℕ} (a : Agent) (h : j ≠ i) :
    (s.setAgent i a).agent? j = s.agent? j := by
  simpa [Sim.setAgent, Sim.agent?] using List.get?_set_ne a s.agents h.symm

@[simp] lemma Sim.agents_setPortal (s : Sim) (pt : PortalRef) (p : Portal) :
    (s.setPortal pt p).agents = s.agents := by
  unfold Sim.setPortal
  cases s.departments.get? pt.1 <;> rfl

@[simp] lemma Sim.agent?_setPortal (s : Sim) (pt : PortalRef) (p : Portal) (i : ℕ) :
    (s.setPortal pt p).agent? i = s.agent? i := by
  unfold Sim.agent?
  rw [Sim.agents_setPortal]

@[simp] lemma Sim.length_departments_setPortal (s : Sim) (pt : PortalRef) (p : Portal) :
    (s.setPortal pt p).departments.length = s.departments.length := by
  unfold Sim.setPortal
  cases s.departments.get? pt.1 <;> simp

@[simp] lemma Sim.speed_setPortal (s : Sim) (pt : PortalRef) (p : Portal) :
    (s.setPortal pt p).speed = s.speed := by
  unfold Sim.setPortal
  cases s.departments.get? pt.1 <;> rfl

@[simp] lemma Sim.isPaused_setPortal (s : Sim) (pt : PortalRef) (p : Portal) :
    (s.setPortal pt p).isPaused = s.isPaused := by
  unfold Sim.setPortal
  cases s.departments.get? pt.1 <;> rfl

@[simp] lemma portalOf_setPortalIn_same (d : Department) (e : Bool) (p : Portal) :
    portalOf (setPortalIn d e p) e = p := by
  cases e <;> simp [portalOf, setPortalIn]

lemma portalOf_setPortalIn_other (d : Department) {e e' : Bool} (p : Portal) (h : e' ≠ e) :
    portalOf (setPortalIn d e p) e' = portalOf d e' := by
  cases e <;> cases e' <;> simp_all [portalOf, setPortalIn]

lemma Sim.dept?_of_portal? {s : Sim} {pt : PortalRef} {p : Portal}
    (h : s.portal? pt = some p) : ∃ d, s.dept? pt.1 = some d ∧ portalOf d pt.2 = p := by
  unfold Sim.portal? at h
  cases hx : s.dept? pt.1 <;> rw [hx] at h <;> simp_all

lemma Sim.portal?_setPortal_self {s : Sim} {pt : PortalRef} {q : Portal}
    (h : s.portal? pt = some q) (p : Portal) : (s.setPortal pt p).portal? pt = some p := by
  obtain ⟨d, hd, hpd⟩ := s.dept?_of_portal? h
  unfold Sim.dept? at hd
  unfold Sim.setPortal Sim.portal? Sim.dept?
  rw [hd]
  simp only [List.get?_eq_getElem?] at hd ⊢
  rw [List.getElem?_set_eq ((List.getElem?_eq_some.mp hd).1)]
  simp

lemma Sim.portal?_setPortal_ne {s : Sim} (pt pt' : PortalRef) (p : Portal) (h : pt' ≠ pt) :
    (s.setPortal pt p).portal? pt' = s.portal? pt' := by
  unfold Sim.setPortal
  cases hx : s.departments.get? pt.1 with
  | none => rfl
  | some d =>
    unfold Sim.portal? Sim.dept?
    simp only [List.get?_eq_getElem?]
    by_cases hk : pt'.1 = pt.1
    · have he : pt'.2 ≠ pt.2 := by
        intro he
        exact h (Prod.ext hk he)
      rw [List.get?_eq_getElem?] at hx
      rw [hk, List.getElem?_set_eq ((List.getElem?_eq_some.mp hx).1), hx]
      simp only [Option.map_some']
      rw [portalOf_setPortalIn_other d p he]
    · rw [List.getElem?_set_ne (fun hh => hk hh.symm)]

/-! ## Frame lemmas: each per-agent step only writes its own agent -/

lemma agent?_releaseHeldPortal (a : Agent) (s : Sim) (j : ℕ) :
    (releaseHeldPortal a s).agent? j = s.agent? j := by
  simp only [releaseHeldPortal]
  repeat' split
  all_goals simp

lemma agent?_stepIdle_ne (o : Oracle) (delta : ℚ) (i : ℕ) (a : Agent) (s : Sim) {j : ℕ}
    (h : j ≠ i) : (stepIdle o delta i a s).agent? j = s.agent? j := by
  simp only [stepIdle]
  split <;> simp [Sim.agent?_setAgent_ne _ _ h]

lemma agent?_stepWandering_ne (o : Oracle) (delta : ℚ) (i : ℕ) (a : Agent) (s : Sim) {j : ℕ}
    (h : j ≠ i) : (stepWandering o delta i a s).agent? j = s.agent? j := by
  simp only [stepWandering]
  repeat' split
  all_goals simp [Sim.agent?_setAgent_ne _ _ h, agent?_releaseHeldPortal]

lemma agent?_stepGoingToDept_ne (i : ℕ) (a : Agent) (s : Sim) {j : ℕ}
    (h : j ≠ i) : (stepGoingToDept i a s).agent? j = s.agent? j := by
  simp only [stepGoingToDept]
  repeat' split
  all_goals simp [Sim.agent?_setAgent_ne _ _ h, agent?_releaseHeldPortal]

lemma agent?_stepEntering_ne (o : Oracle) (i : ℕ) (a : Agent) (s : Sim) {j : ℕ}
    (h : j ≠ i) : (stepEntering o i a s).agent? j = s.agent? j := by
  simp only [stepEntering]
  repeat' split
  all_goals simp [Sim.agent?_setAgent_ne _ _ h, agent?_releaseHeldPortal]

lemma agent?_stepInsideDept_ne (o : Oracle) (delta : ℚ) (i : ℕ) (a : Agent) (s : Sim) {j : ℕ}
    (h : j ≠ i) : (stepInsideDept o delta i a s).agent? j = s.agent? j := by
  simp only [stepInsideDept]
  repeat' split
  all_goals simp [Sim.agent?_setAgent_ne _ _ h, agent?_releaseHeldPortal]

lemma agent?_stepGoingToExit_ne (i : ℕ) (a : Agent) (s : Sim) {j : ℕ}
    (h : j ≠ i) : (stepGoingToExit i a s).agent? j = s.agent? j := by
  simp only [stepGoingToExit]
  repeat' split
  all_goals simp [Sim.agent?_setAgent_ne _ _ h, agent?_releaseHeldPortal]

lemma agent?_stepExiting_ne (o : Oracle) (i : ℕ) (a : Agent) (s : Sim) {j : ℕ}
    (h : j ≠ i) : (stepExiting o i a s).agent? j = s.agent? j := by
  simp only [stepExiting]
  repeat' split
  all_goals simp [Sim.agent?_setAgent_ne _ _ h, agent?_releaseHeldPortal]

lemma agent?_stepWaiting_ne (i : ℕ) (a : Agent) (s : Sim) {j : ℕ}
    (h : j ≠ i) : (stepWaiting i a s).agent? j = s.agent? j := by
  unfold stepWaiting
  exact s.agent?_setAgent_ne _ h

lemma agent?_updateAgentState_ne (o : Oracle) (delta : ℚ) (s : Sim) (i : ℕ) {j : ℕ}
    (h : j ≠ i) : (updateAgentState o delta s i).agent? j = s.agent? j := by
  unfold updateAgentState
  split
  · rfl
  · split
    · exact agent?_stepIdle_ne o delta i _ s h
    · exact agent?_stepWandering_ne o delta i _ s h
    · exact agent?_stepGoingToDept_ne i _ s h
    · exact agent?_stepEntering_ne o i _ s h
    · exact agent?_stepInsideDept_ne o delta i _ s h
    · exact agent?_stepGoingToExit_ne i _ s h
    · exact agent?_stepExiting_ne o i _ s h
    · exact agent?_stepWaiting_ne i _ s h
    · exact agent?_stepWaiting_ne i _ s h

lemma agent?_updateAgentMovement_ne (f : ℚ) (s : Sim) (i : ℕ) {j : ℕ}
    (h : j ≠ i) : (updateAgentMovement f s i).agent? j = s.agent? j := by
  unfold updateAgentMovement
  split
  · rfl
  · exact s.agent?_setAgent_ne _ h

lemma agent?_deptCollisionStep_ne (o : Oracle) (i : ℕ) (s : Sim) (k : ℕ) {j : ℕ}
    (h : j ≠ i) : (deptCollisionStep o i s k).agent? j = s.agent? j := by
  simp only [deptCollisionStep]
  repeat' split
  all_goals simp [Sim.agent?_setAgent_ne _ _ h, agent?_releaseHeldPortal]

lemma agent?_foldl_deptCollisionStep_ne (o : Oracle) (i : ℕ) {j : ℕ} (h : j ≠ i)
    (L : List ℕ) (t : Sim) :
    (L.foldl (deptCollisionStep o i) t).agent? j = t.agent? j := by
  induction L generalizing t with
  | nil => rfl
  | cons k L ih => rw [List.foldl_cons, ih, agent?_deptCollisionStep_ne o i t k h]

lemma agent?_boundaryPhase_ne (s : Sim) (i : ℕ) (a : Agent) {j : ℕ}
    (h : j ≠ i) : (boundaryPhase s i a).agent? j = s.agent? j := by
  simp only [boundaryPhase]
  repeat' split
  all_goals simp [Sim.agent?_setAgent_ne _ _ h, agent?_releaseHeldPortal]

lemma agent?_handleAgentEnvironmentCollisions_ne (o : Oracle) (s : Sim) (i : ℕ) {j : ℕ}
    (h : j ≠ i) : (handleAgentEnvironmentCollisions o s i).agent? j = s.agent? j := by
  unfold handleAgentEnvironmentCollisions
  cases ha : s.agent? i with
  | none => rfl
  | some a =>
    simp only []
    split
    · exact agent?_boundaryPhase_ne s i a h
    · split
      · exact agent?_boundaryPhase_ne s i a h
      · rw [agent?_foldl_deptCollisionStep_ne o i h]
        exact agent?_boundaryPhase_ne s i a h

lemma agent?_agentSweepStep_ne (o : Oracle) (delta f : ℚ) (s : Sim) (i : ℕ) {j : ℕ}
    (h : j ≠ i) : (agentSweepStep o delta f s i).agent? j = s.agent? j := by
  unfold agentSweepStep
  rw [agent?_handleAgentEnvironmentCollisions_ne _ _ _ h,
    agent?_updateAgentMovement_ne _ _ _ h, agent?_updateAgentState_ne _ _ _ _ h]

lemma deptCollisionStep_noHit {o : Oracle} {i k : ℕ} (s : Sim) (h : o.rayHit i k = none) :
    deptCollisionStep o i s k = s := by
  unfold deptCollisionStep
  repeat' split
  all_goals simp_all

lemma foldl_deptCollisionStep_noHit {o : Oracle} {i : ℕ} (s : Sim) (L : List ℕ)
    (h : ∀ k, o.rayHit i k = none) :
    L.foldl (deptCollisionStep o i) s = s := by
  induction L with
  | nil => rfl
  | cons k L ih => rw [List.foldl_cons, deptCollisionStep_noHit s (h k), ih]

lemma processQueueStep_emptyQueues (s : Sim) (k : ℕ) (e : Bool)
    (h : ∀ pt p, s.portal? pt = some p → p.queue = []) :
    processQueueStep s k e = s := by
  unfold processQueueStep
  cases hp : s.portal? (k, e) with
  | none => rfl
  | some p =>
    simp only []
    split
    · rfl
    · split
      · rfl
      · rename_i hq
        rw [h (k, e) p hp] at hq
        cases hq

lemma processPortalQueues_emptyQueues (s : Sim)
    (h : ∀ pt p, s.portal? pt = some p → p.queue = []) :
    processPortalQueues s = s := by
  unfold processPortalQueues
  have hstep : ∀ (L : List ℕ), L.foldl (fun s1 k => processQueueStep (processQueueStep s1 k true) k false) s = s := by
    intro L
    induction L with
    | nil => rfl
    | cons k L ih =>
      rw [List.foldl_cons, processQueueStep_emptyQueues s k true h,
        processQueueStep_emptyQueues s k false h, ih]
  exact hstep _

/-! ## Queue-structure lemmas (for the FIFO property) -/

lemma departments_updateAgentMovement (f : ℚ) (s : Sim) (i : ℕ) :
    (updateAgentMovement f s i).departments = s.departments := by
  unfold updateAgentMovement
  repeat' split
  all_goals rfl

lemma departments_pairCollisionStep (s : Sim) (i j : ℕ) :
    (pairCollisionStep s i j).departments = s.departments := by
  simp only [pairCollisionStep]
  repeat' split
  all_goals rfl

lemma departments_foldl_pair (s : Sim) (i : ℕ) (M : List ℕ) :
    (M.foldl (fun s2 j => pairCollisionStep s2 i j) s).departments = s.departments := by
  induction M generalizing s with
  | nil => rfl
  | cons j M ih => rw [List.foldl_cons, ih, departments_pairCollisionStep]

lemma departments_outer_fold (s : Sim) (L : List ℕ) (F : ℕ → List ℕ) :
    (L.foldl (fun s1 i => (F i).foldl (fun s2 j => pairCollisionStep s2 i j) s1) s).departments =
      s.departments := by
  induction L generalizing s with
  | nil => rfl
  | cons i L ih => rw [List.foldl_cons, ih, departments_foldl_pair]

lemma departments_handleAgentAgentCollisions (s : Sim) :
    (handleAgentAgentCollisions s).departments = s.departments :=
  departments_outer_fold s _ _

lemma queueExt_id {s : Sim} {pt : PortalRef} {p : Portal} (hp : s.portal? pt = some p) :
    ∃ p' u, s.portal? pt = some p' ∧ p'.queue = p.queue ++ u :=
  ⟨p, [], hp, by simp⟩

lemma queueExt_setAgent {s : Sim} {pt : PortalRef} {p : Portal} (i : ℕ) (a : Agent)
    (hp : s.portal? pt = some p) :
    ∃ p' u, (s.setAgent i a).portal? pt = some p' ∧ p'.queue = p.queue ++ u :=
  ⟨p, [], by simpa using hp, by simp⟩

lemma queueExt_setPortal_setAgent (s : Sim) (pt' : PortalRef) {q : Portal} (v : Portal)
    (i : ℕ) (a : Agent) (hq : s.portal? pt' = some q)
    (hv : v.queue = q.queue ∨ v.queue = q.queue ++ [i]) {pt : PortalRef} {p : Portal}
    (hp : s.portal? pt = some p) :
    ∃ p' u, ((s.setPortal pt' v).setAgent i a).portal? pt = some p' ∧
      p'.queue = p.queue ++ u := by
  by_cases hpt : pt = pt'
  · subst hpt
    have hqp : q = p := by
      rw [hq] at hp
      exact (Option.some_injective _ hp)
    subst hqp
    cases hv with
    | inl h => exact ⟨v, [], by simp [Sim.portal?_setPortal_self hp], by simp [h]⟩
    | inr h => exact ⟨v, [i], by simp [Sim.portal?_setPortal_self hp], h⟩
  · exact ⟨p, [], by simp [Sim.portal?_setPortal_ne pt' pt v hpt, hp], by simp⟩

lemma queueExt_updateAgentState (o : Oracle) (delta : ℚ) (s : Sim) (i : ℕ)
    {pt : PortalRef} {p : Portal} (hp : s.portal? pt = some p) :
    ∃ p' u, (updateAgentState o delta s i).portal? pt = some p' ∧ p'.queue = p.queue ++ u := by
  simp only [updateAgentState, stepIdle, stepWandering, stepGoingToDept, stepEntering,
    stepInsideDept, stepGoingToExit, stepExiting, stepWaiting]
  repeat' split
  all_goals first
    | exact queueExt_id hp
    | exact queueExt_setAgent _ _ hp
    | (apply queueExt_setPortal_setAgent _ _ _ _ _ _ _ hp <;>
        first
          | assumption
          | exact Or.inl rfl
          | exact Or.inr rfl)

lemma Sim.portal?_eq_of_departments {s s' : Sim} (h : s'.departments = s.departments)
    (pt : PortalRef) : s'.portal? pt = s.portal? pt := by
  unfold Sim.portal? Sim.dept?
  rw [h]

lemma queuePres_setPortal (s : Sim) (pt' : PortalRef) {q : Portal} (v : Portal)
    (hq : s.portal? pt' = some q) (hv : v.queue = q.queue) {pt : PortalRef} {p : Portal}
    (hp : s.portal? pt = some p) :
    ∃ p', (s.setPortal pt' v).portal? pt = some p' ∧ p'.queue = p.queue := by
  by_cases hpt : pt = pt'
  · subst hpt
    have hqp : q = p := by
      rw [hq] at hp
      exact Option.some_injective _ hp
    exact ⟨v, Sim.portal?_setPortal_self hq v, by rw [hv, hqp]⟩
  · exact ⟨p, by rw [Sim.portal?_setPortal_ne pt' pt v hpt, hp], rfl⟩

lemma queuePres_setPortal_occ (s : Sim) (pt' : PortalRef) {q : Portal} (b : Bool)
    (hq : s.portal? pt' = some q) {pt : PortalRef} {p : Portal} (hp : s.portal? pt = some p) :
    ∃ p', (s.setPortal pt' { q with isOccupied := b }).portal? pt = some p' ∧
      p'.queue = p.queue :=
  queuePres_setPortal s pt' { q with isOccupied := b } hq rfl hp

lemma queuePres_releaseHeldPortal (a : Agent) (s : Sim) {pt : PortalRef} {p : Portal}
    (hp : s.portal? pt = some p) :
    ∃ p', (releaseHeldPortal a s).portal? pt = some p' ∧ p'.queue = p.queue := by
  simp only [releaseHeldPortal]
  repeat' split
  all_goals first
    | exact ⟨p, hp, rfl⟩
    | exact queuePres_setPortal_occ _ _ _ (by assumption) hp

lemma queuePres_deptCollisionStep (o : Oracle) (i : ℕ) (s : Sim) (k : ℕ)
    {pt : PortalRef} {p : Portal} (hp : s.portal? pt = some p) :
    ∃ p', (deptCollisionStep o i s k).portal? pt = some p' ∧ p'.queue = p.queue := by
  simp only [deptCollisionStep]
  repeat' split
  all_goals first
    | exact ⟨p, hp, rfl⟩
    | exact ⟨p, by simpa using hp, rfl⟩
    | (obtain ⟨p', h1, h2⟩ := queuePres_releaseHeldPortal _ s hp
       exact ⟨p', by simpa using h1, h2⟩)

lemma queuePres_foldl_deptCollisionStep (o : Oracle) (i : ℕ) (L : List ℕ) (s : Sim)
    {pt : PortalRef} {p : Portal} (hp : s.portal? pt = some p) :
    ∃ p', (L.foldl (deptCollisionStep o i) s).portal? pt = some p' ∧ p'.queue = p.queue := by
  induction L generalizing s p with
  | nil => exact ⟨p, hp, rfl⟩
  | cons k L ih =>
    obtain ⟨p1, h1, h2⟩ := queuePres_deptCollisionStep o i s k hp
    obtain ⟨p2, h3, h4⟩ := ih _ h1
    exact ⟨p2, by simpa using h3, by rw [h4, h2]⟩

lemma queuePres_boundaryPhase (s : Sim) (i : ℕ) (a : Agent) {pt : PortalRef} {p : Portal}
    (hp : s.portal? pt = some p) :
    ∃ p', (boundaryPhase s i a).portal? pt = some p' ∧ p'.queue = p.queue := by
  simp only [boundaryPhase]
  split
  · obtain ⟨p', h1, h2⟩ := queuePres_releaseHeldPortal _ s hp
    exact ⟨p', by simpa using h1, h2⟩
  · exact ⟨p, by simpa using hp, rfl⟩

lemma queuePres_handleAgentEnvironmentCollisions (o : Oracle) (s : Sim) (i : ℕ)
    {pt : PortalRef} {p : Portal} (hp : s.portal? pt = some p) :
    ∃ p', (handleAgentEnvironmentCollisions o s i).portal? pt = some p' ∧
      p'.queue = p.queue := by
  unfold handleAgentEnvironmentCollisions
  split
  · exact ⟨p, hp, rfl⟩
  · rename_i a2 heq2
    obtain ⟨p1, h1, h2⟩ := queuePres_boundaryPhase s i a2 hp
    simp only []
    split
    · exact ⟨p1, h1, h2⟩
    · split
      · exact ⟨p1, h1, h2⟩
      · obtain ⟨p2, h3, h4⟩ := queuePres_foldl_deptCollisionStep o i _ _ h1
        exact ⟨p2, h3, by rw [h4, h2]⟩

lemma queueExt_agentSweepStep (o : Oracle) (delta f : ℚ) (s : Sim) (i : ℕ)
    {pt : PortalRef} {p : Portal} (hp : s.portal? pt = some p) :
    ∃ p' u, (agentSweepStep o delta f s i).portal? pt = some p' ∧ p'.queue = p.queue ++ u := by
  unfold agentSweepStep
  obtain ⟨p1, u, h1, h2⟩ := queueExt_updateAgentState o delta s i hp
  have h3 : (updateAgentMovement f (updateAgentState o delta s i) i).portal? pt = some p1 := by
    rw [Sim.portal?_eq_of_departments (departments_updateAgentMovement f _ i) pt, h1]
  obtain ⟨p2, h4, h5⟩ := queuePres_handleAgentEnvironmentCollisions o _ i h3
  exact ⟨p2, u, h4, by rw [h5, h2]⟩

lemma queueExt_sweep_fold (o : Oracle) (delta f : ℚ) (L : List ℕ) (s : Sim)
    {pt : PortalRef} {p : Portal} (hp : s.portal? pt = some p) :
    ∃ p' u, (L.foldl (agentSweepStep o delta f) s).portal? pt = some p' ∧
      p'.queue = p.queue ++ u := by
  induction L generalizing s p with
  | nil => exact ⟨p, [], hp, by simp⟩
  | cons i L ih =>
    obtain ⟨p1, u1, h1, h2⟩ := queueExt_agentSweepStep o delta f s i hp
    obtain ⟨p2, u2, h3, h4⟩ := ih _ h1
    exact ⟨p2, u1 ++ u2, by simpa using h3, by rw [h4, h2, List.append_assoc]⟩

lemma portal?_processQueueStep_ne (s : Sim) (k : ℕ) (e : Bool) {pt : PortalRef}
    (h : pt ≠ (k, e)) : (processQueueStep s k e).portal? pt = s.portal? pt := by
  unfold processQueueStep
  repeat' split
  all_goals simp [Sim.portal?_setPortal_ne (k, e) pt _ h]

lemma queueDrop_processQueueStep (s : Sim) (k : ℕ) (e : Bool) {p : Portal}
    (hp : s.portal? (k, e) = some p) :
    ∃ p' d, d ≤ 1 ∧ (processQueueStep s k e).portal? (k, e) = some p' ∧
      p'.queue = p.queue.drop d := by
  unfold processQueueStep
  rw [hp]
  simp only []
  by_cases hocc : p.isOccupied = true
  · rw [if_pos hocc]
    exact ⟨p, 0, by omega, hp, rfl⟩
  · rw [if_neg hocc]
    cases hq : p.queue with
    | nil =>
      simp only [hq]
      exact ⟨p, 0, by omega, hp, by rw [hq]; rfl⟩
    | cons j rest =>
      simp only [hq]
      cases hb : s.agent? j with
      | none =>
        simp only [hb]
        exact ⟨{ p with queue := rest }, 1, le_refl 1,
          by simp [Sim.portal?_setPortal_self hp], rfl⟩
      | some b =>
        simp only [hb]
        by_cases hw : b.state = waitState e
        · rw [if_pos hw]
          exact ⟨{ p with queue := rest, isOccupied := true }, 1, le_refl 1,
            by simp [Sim.portal?_setPortal_self hp], rfl⟩
        · rw [if_neg hw]
          exact ⟨{ p with queue := rest }, 1, le_refl 1,
            by simp [Sim.portal?_setPortal_self hp], rfl⟩

lemma queueDrop_processDept (s : Sim) (k' : ℕ) {pt : PortalRef} {p : Portal}
    (hp : s.portal? pt = some p) :
    ∃ p' d, d ≤ 1 ∧
      (processQueueStep (processQueueStep s k' true) k' false).portal? pt = some p' ∧
      p'.queue = p.queue.drop d := by
  by_cases h1 : pt = (k', true)
  · obtain ⟨p1, d, hd, h2, h3⟩ := queueDrop_processQueueStep s k' true (h1 ▸ hp)
    refine ⟨p1, d, hd, ?_, h3⟩
    rw [h1, portal?_processQueueStep_ne _ k' false (by simp)]
    exact h2
  · by_cases h2 : pt = (k', false)
    · have h3 : (processQueueStep s k' true).portal? (k', false) = some p := by
        rw [portal?_processQueueStep_ne _ k' true (by simp)]
        exact h2 ▸ hp
      obtain ⟨p1, d, hd, h4, h5⟩ := queueDrop_processQueueStep _ k' false h3
      refine ⟨p1, d, hd, ?_, h5⟩
      rw [h2]
      exact h4
    · refine ⟨p, 0, by omega, ?_, rfl⟩
      rw [portal?_processQueueStep_ne _ k' false h2, portal?_processQueueStep_ne _ k' true h1]
      exact hp

lemma portal?_processDept_notMine (s : Sim) (k' : ℕ) {pt : PortalRef} (h : pt.1 ≠ k') :
    (processQueueStep (processQueueStep s k' true) k' false).portal? pt = s.portal? pt := by
  rw [portal?_processQueueStep_ne _ k' false (by intro hh; rw [hh] at h; exact h rfl),
    portal?_processQueueStep_ne _ k' true (by intro hh; rw [hh] at h; exact h rfl)]

lemma portal?_queues_fold_notMine (L : List ℕ) (t : Sim) {pt : PortalRef}
    (h : L.count pt.1 = 0) :
    (L.foldl (fun s1 k => processQueueStep (processQueueStep s1 k true) k false) t).portal? pt
      = t.portal? pt := by
  induction L generalizing t with
  | nil => rfl
  | cons k2 L2 ih =>
    rw [List.count_cons] at h
    simp only [beq_iff_eq] at h
    by_cases hk : k2 = pt.1
    · rw [if_pos hk] at h
      omega
    · rw [if_neg hk] at h
      simp only [Nat.add_zero] at h
      rw [List.foldl_cons, ih _ h, portal?_processDept_notMine t k2 (fun hh => hk hh.symm)]

lemma queueDrop_queues_fold (L : List ℕ) (s : Sim) {pt : PortalRef} {p : Portal}
    (hL : L.count pt.1 ≤ 1) (hp : s.portal? pt = some p) :
    ∃ p' d, d ≤ 1 ∧
      (L.foldl (fun s1 k => processQueueStep (processQueueStep s1 k true) k false) s).portal? pt
        = some p' ∧ p'.queue = p.queue.drop d := by
  induction L generalizing s p with
  | nil => exact ⟨p, 0, by omega, hp, rfl⟩
  | cons k' L ih =>
    rw [List.foldl_cons]
    by_cases hk : pt.1 = k'
    · subst hk
      obtain ⟨p1, d, hd, h1, h2⟩ := queueDrop_processDept s pt.1 hp
      have hnot : L.count pt.1 = 0 := by
        rw [List.count_cons] at hL
        simp at hL
        omega
      exact ⟨p1, d, hd, by rw [portal?_queues_fold_notMine L _ hnot, h1], h2⟩
    · have h1 : (processQueueStep (processQueueStep s k' true) k' false).portal? pt =
          some p := by
        rw [portal?_processDept_notMine s k' hk]
        exact hp
      have hL2 : L.count pt.1 ≤ 1 := by
        rw [List.count_cons] at hL
        simp only [beq_iff_eq, if_neg (fun hh : k' = pt.1 => hk hh.symm)] at hL
        omega
      exact ih _ hL2 h1

/-! ## C2: queue FIFO -/

/-- **C2**: across one tick, every portal queue is transformed by appending
new waiters at the back and removing at most one entry from the front — it
is never reordered or prioritized. Hence if agent A sits in front of agent B
(`ia < ib`), B stays in the queue with every entry in front of it shifted
uniformly (so A is dequeued no later than B: only the front index 0 can
leave the queue in a tick). -/
theorem queue_fifo (o : Oracle) (delta : ℚ) (s : Sim) (pt : PortalRef) (p : Portal)
    (hp : s.portal? pt = some p) :
    ∃ p' pushed d, (updateAgents o delta s).portal? pt = some p' ∧ d ≤ 1 ∧
      p'.queue = (p.queue ++ pushed).drop d ∧
      ∀ ia ib : ℕ, ia < ib → ib < p.queue.length →
        p'.queue.get? (ib - d) = p.queue.get? ib ∧
        (d ≤ ia → p'.queue.get? (ia - d) = p.queue.get? ia) := by
  have hindex : ∀ (q u : List ℕ) (d j : ℕ), d ≤ j → j < q.length →
      ((q ++ u).drop d).get? (j - d) = q.get? j := by
    intro q u d j hdj hj
    rw [List.get?_drop, Nat.add_sub_cancel' hdj, List.get?_append hj]
  unfold updateAgents
  split
  · refine ⟨p, [], 0, hp, by omega, by simp, ?_⟩
    intro ia ib hab hib
    exact ⟨by simp, fun _ => by simp⟩
  · have hp1 : (handleAgentAgentCollisions s).portal? pt = some p := by
      rw [Sim.portal?_eq_of_departments (departments_handleAgentAgentCollisions s) pt]
      exact hp
    obtain ⟨p2, u, h2, h3⟩ := queueExt_sweep_fold o delta (s.speed * delta) _ _ hp1
    have hcount : (List.range (handleAgentAgentCollisions s).departments.length).count pt.1 ≤ 1 :=
      List.nodup_iff_count_le_one.mp (List.nodup_range _) pt.1
    have hcount2 : (List.range
        ((List.range (handleAgentAgentCollisions s).agents.length).foldl
          (agentSweepStep o delta (s.speed * delta)) (handleAgentAgentCollisions s)).departments.length).count pt.1 ≤ 1 :=
      List.nodup_iff_count_le_one.mp (List.nodup_range _) pt.1
    obtain ⟨p3, d, hd, h4, h5⟩ := queueDrop_queues_fold _ _ hcount2 h2
    refine ⟨p3, u, d, ?_, hd, by rw [h5, h3], ?_⟩
    · exact h4
    · intro ia ib hab hib
      constructor
      · rw [h5, h3]
        exact hindex _ _ _ _ (by omega) hib
      · intro hda
        rw [h5, h3]
        exact hindex _ _ _ _ hda (by omega)

/-! ## Floor-height lemmas (for C7) -/

lemma ybase_updateAgentMovement (f : ℚ) (s : Sim) (i : ℕ) :
    ∀ a', (updateAgentMovement f s i).agent? i = some a' →
      a'.position.y = a'.baseHeight := by
  unfold updateAgentMovement
  cases ha : s.agent? i with
  | none =>
    intro a' ha'
    rw [ha] at ha'
    cases ha'
  | some a =>
    intro a' ha'
    simp only [] at ha'
    rw [Sim.agent?_setAgent_self _ ha] at ha'
    cases ha'
    split <;> rfl

lemma ybase_boundaryPhase (s : Sim) (i : ℕ) (a : Agent) (ha : s.agent? i = some a)
    (hy : a.position.y = a.baseHeight) :
    ∀ a', (boundaryPhase s i a).agent? i = some a' → a'.position.y = a'.baseHeight := by
  have hb : (boundaryBounce a).1.position.y = (boundaryBounce a).1.baseHeight := by
    unfold boundaryBounce
    split <;> (simp only []; split) <;> simpa using hy
  simp only [boundaryPhase]
  split
  · intro a' ha'
    rw [Sim.agent?_setAgent_self _ (by rw [agent?_releaseHeldPortal]; exact ha)] at ha'
    cases ha'
    exact hb
  · intro a' ha'
    rw [Sim.agent?_setAgent_self _ ha] at ha'
    cases ha'
    exact hb

lemma ybase_deptCollisionStep (o : Oracle) (i : ℕ) (s : Sim) (k : ℕ)
    (h : ∀ a, s.agent? i = some a → a.position.y = a.baseHeight) :
    ∀ a', (deptCollisionStep o i s k).agent? i = some a' →
      a'.position.y = a'.baseHeight := by
  intro a' ha'
  simp only [deptCollisionStep] at ha'
  repeat' split at ha'
  all_goals first
    | exact h a' ha'
    | (rw [Sim.agent?_setAgent_self _ (by assumption)] at ha'
       cases ha'
       rfl)
    | (rw [Sim.agent?_setAgent_self _
          (show (releaseHeldPortal _ s).agent? i = some _ by
            rw [agent?_releaseHeldPortal]
            assumption)] at ha'
       cases ha'
       rfl)

lemma ybase_foldl_deptCollisionStep (o : Oracle) (i : ℕ) (L : List ℕ) (s : Sim)
    (h : ∀ a, s.agent? i = some a → a.position.y = a.baseHeight) :
    ∀ a', ((L.foldl (deptCollisionStep o i) s).agent? i = some a') →
      a'.position.y = a'.baseHeight := by
  induction L generalizing s with
  | nil => exact h
  | cons k L ih =>
    rw [List.foldl_cons]
    exact ih _ (ybase_deptCollisionStep o i s k h)

lemma ybase_handleAgentEnvironmentCollisions (o : Oracle) (s : Sim) (i : ℕ)
    (h : ∀ a, s.agent? i = some a → a.position.y = a.baseHeight) :
    ∀ a', (handleAgentEnvironmentCollisions o s i).agent? i = some a' →
      a'.position.y = a'.baseHeight := by
  unfold handleAgentEnvironmentCollisions
  cases ha : s.agent? i with
  | none => exact h
  | some a =>
    simp only []
    have hbp := ybase_boundaryPhase s i a ha (h a ha)
    split
    · exact hbp
    · split
      · exact hbp
      · exact ybase_foldl_deptCollisionStep o i _ _ (fun b hb => hbp b hb)

lemma ybase_agentSweepStep (o : Oracle) (delta f : ℚ) (s : Sim) (i : ℕ) :
    ∀ a', (agentSweepStep o delta f s i).agent? i = some a' →
      a'.position.y = a'.baseHeight := by
  unfold agentSweepStep
  exact ybase_handleAgentEnvironmentCollisions o _ i
    (ybase_updateAgentMovement f (updateAgentState o delta s i) i)

lemma agent?_sweep_fold_not_mem (o : Oracle) (delta f : ℚ) (L : List ℕ) (t : Sim) (i : ℕ)
    (h : i ∉ L) :
    (L.foldl (agentSweepStep o delta f) t).agent? i = t.agent? i := by
  induction L generalizing t with
  | nil => rfl
  | cons j L ih =>
    rw [List.foldl_cons, ih _ (fun hm => h (List.mem_cons_of_mem j hm)),
      agent?_agentSweepStep_ne o delta f t j
        (fun hij => h (by rw [hij]; exact List.mem_cons_self j L))]

lemma ybase_sweep_fold (o : Oracle) (delta f : ℚ) (L : List ℕ) (s : Sim) (i : ℕ)
    (hi : i ∈ L) :
    ∀ a', ((L.foldl (agentSweepStep o delta f) s).agent? i = some a') →
      a'.position.y = a'.baseHeight := by
  induction L generalizing s with
  | nil => cases hi
  | cons j L ih =>
    rw [List.foldl_cons]
    by_cases hmem : i ∈ L
    · exact ih _ hmem
    · have hij : i = j := by
        cases hi with
        | head => rfl
        | tail _ hm => exact absurd hm hmem
      subst hij
      intro a' ha'
      rw [agent?_sweep_fold_not_mem o delta f L _ i hmem] at ha'
      exact ybase_agentSweepStep o delta f s i a' ha'

lemma pos_processQueueStep (s : Sim) (k : ℕ) (e : Bool) (j : ℕ) :
    ∀ a', (processQueueStep s k e).agent? j = some a' →
      ∃ a, s.agent? j = some a ∧ a'.position = a.position ∧ a'.baseHeight = a.baseHeight := by
  intro a' ha'
  simp only [processQueueStep] at ha'
  split at ha'
  case h_1 => exact ⟨a', ha', rfl, rfl⟩
  case h_2 p hp =>
    split at ha'
    · exact ⟨a', ha', rfl, rfl⟩
    · split at ha'
      · exact ⟨a', ha', rfl, rfl⟩
      · rename_i j0 rest hq
        split at ha'
        case h_1 => exact ⟨a', by simpa using ha', rfl, rfl⟩
        case h_2 b hb =>
          by_cases hj : j = j0
          · subst hj
            split at ha'
            all_goals
              rw [Sim.agent?_setAgent_self _ (by simpa using hb)] at ha'
              cases ha'
              exact ⟨b, hb, rfl, rfl⟩
          · split at ha'
            all_goals
              rw [Sim.agent?_setAgent_ne _ _ hj] at ha'
              exact ⟨a', by simpa using ha', rfl, rfl⟩

lemma pos_processPortalQueues (s : Sim) (j : ℕ) :
    ∀ a', (processPortalQueues s).agent? j = some a' →
      ∃ a, s.agent? j = some a ∧ a'.position = a.position ∧ a'.baseHeight = a.baseHeight := by
  unfold processPortalQueues
  generalize List.range s.departments.length = L
  induction L generalizing s with
  | nil => exact fun a' ha' => ⟨a', ha', rfl, rfl⟩
  | cons k L ih =>
    rw [List.foldl_cons]
    intro a' ha'
    obtain ⟨a1, h1, h2, h3⟩ := ih _ a' ha'
    obtain ⟨a2, h4, h5, h6⟩ := pos_processQueueStep _ k false j a1 h1
    obtain ⟨a3, h7, h8, h9⟩ := pos_processQueueStep _ k true j a2 h4
    exact ⟨a3, h7, by rw [h2, h5, h8], by rw [h3, h6, h9]⟩

lemma length_agents_updateAgentState (o : Oracle) (delta : ℚ) (s : Sim) (i : ℕ) :
    (updateAgentState o delta s i).agents.length = s.agents.length := by
  simp only [updateAgentState, stepIdle, stepWandering, stepGoingToDept, stepEntering,
    stepInsideDept, stepGoingToExit, stepExiting, stepWaiting]
  repeat' split
  all_goals simp [Sim.setAgent, Sim.agents_setPortal]

lemma length_agents_updateAgentMovement (f : ℚ) (s : Sim) (i : ℕ) :
    (updateAgentMovement f s i).agents.length = s.agents.length := by
  unfold updateAgentMovement
  repeat' split
  all_goals simp [Sim.setAgent]

lemma length_agents_releaseHeldPortal (a : Agent) (s : Sim) :
    (releaseHeldPortal a s).agents.length = s.agents.length := by
  simp only [releaseHeldPortal]
  repeat' split
  all_goals simp [Sim.agents_setPortal]

lemma length_agents_boundaryPhase (s : Sim) (i : ℕ) (a : Agent) :
    (boundaryPhase s i a).agents.length = s.agents.length := by
  simp only [boundaryPhase]
  split
  all_goals simp [Sim.setAgent, length_agents_releaseHeldPortal]

lemma length_agents_deptCollisionStep (o : Oracle) (i : ℕ) (s : Sim) (k : ℕ) :
    (deptCollisionStep o i s k).agents.length = s.agents.length := by
  simp only [deptCollisionStep]
  repeat' split
  all_goals simp [Sim.setAgent, length_agents_releaseHeldPortal]

lemma length_agents_foldl_deptCollisionStep (o : Oracle) (i : ℕ) (L : List ℕ) (s : Sim) :
    ((L.foldl (deptCollisionStep o i) s)).agents.length = s.agents.length := by
  induction L generalizing s with
  | nil => rfl
  | cons k L ih => rw [List.foldl_cons, ih, length_agents_deptCollisionStep]

lemma length_agents_handleAgentEnvironmentCollisions (o : Oracle) (s : Sim) (i : ℕ) :
    (handleAgentEnvironmentCollisions o s i).agents.length = s.agents.length := by
  unfold handleAgentEnvironmentCollisions
  split
  · rfl
  · simp only []
    split
    · exact length_agents_boundaryPhase s i _
    · split
      · exact length_agents_boundaryPhase s i _
      · rw [length_agents_foldl_deptCollisionStep, length_agents_boundaryPhase]

lemma length_agents_agentSweepStep (o : Oracle) (delta f : ℚ) (s : Sim) (i : ℕ) :
    (agentSweepStep o delta f s i).agents.length = s.agents.length := by
  unfold agentSweepStep
  rw [length_agents_handleAgentEnvironmentCollisions, length_agents_updateAgentMovement,
    length_agents_updateAgentState]

lemma length_agents_sweep_fold (o : Oracle) (delta f : ℚ) (L : List ℕ) (s : Sim) :
    (L.foldl (agentSweepStep o delta f) s).agents.length = s.agents.length := by
  induction L generalizing s with
  | nil => rfl
  | cons i L ih => rw [List.foldl_cons, ih, length_agents_agentSweepStep]

/-! # Claim theorems (first batch)

## C4: pausing is idempotent and a paused tick is a no-op -/

/-- **C4**: setting the paused flag to `true` twice yields the same state as
setting it once, and a tick taken while the flag is `true` leaves the whole
simulation state (every agent's position, velocity, state and timers)
unchanged. -/
theorem pause_idempotent_tick_noop (s : Sim) (o : Oracle) (delta : ℚ)
    (h : s.isPaused = true) :
    setPaused true (setPaused true s) = setPaused true s ∧ updateAgents o delta s = s := by
  refine ⟨rfl, ?_⟩
  unfold updateAgents
  rw [h]
  simp

/-- Witness for C4 at a concrete paused state. -/
theorem pause_idempotent_tick_noop_witness :
    setPaused true (setPaused true (setPaused true simBoundary)) =
      setPaused true (setPaused true simBoundary) ∧
    updateAgents defaultOracle 1 (setPaused true simBoundary) = setPaused true simBoundary :=
  pause_idempotent_tick_noop (setPaused true simBoundary) defaultOracle 1 rfl

/-! ## C8: movement integration -/

/-- **C8**: for an agent not in `IDLE`/`WAITING_ENTRY`/`WAITING_EXIT` the
movement step sets `position := position + velocity * (speed * delta)`;
for an agent in one of those held states it leaves the planar position
unchanged (hypotheses: the floor-height invariant and a planar velocity,
both maintained by every tick). -/
theorem movement_integration (s : Sim) (delta : ℚ) (i : ℕ) (a : Agent)
    (ha : s.agent? i = some a) (hy : a.position.y = a.baseHeight) (hvy : a.velocity.y = 0) :
    (¬ heldState a.state →
      (updateAgentMovement (s.speed * delta) s i).agent? i =
        some { a with position := a.position.add (a.velocity.multiplyScalar (s.speed * delta)) }) ∧
    (heldState a.state →
      ∃ a', (updateAgentMovement (s.speed * delta) s i).agent? i = some a' ∧
        a'.position.x = a.position.x ∧ a'.position.z = a.position.z ∧
        a'.velocity = a.velocity ∧ a'.state = a.state) := by
  constructor
  · intro hnot
    unfold updateAgentMovement
    rw [ha]
    simp only [if_neg hnot]
    have hset : (a.position.add (a.velocity.multiplyScalar (s.speed * delta))).setY a.baseHeight =
        a.position.add (a.velocity.multiplyScalar (s.speed * delta)) := by
      simp only [Vec3.add, Vec3.multiplyScalar, Vec3.setY, hvy, hy]
      simp
    rw [Sim.agent?_setAgent_self _ ha]
    simp [hset]
  · intro hheld
    unfold updateAgentMovement
    rw [ha]
    simp only [if_pos hheld]
    exact ⟨_, Sim.agent?_setAgent_self _ ha, rfl, rfl, rfl, rfl⟩

/-- Witness for C8: a moving agent and a held agent. -/
theorem movement_integration_witness :
    simBoundary.agent? 0 = some (mkAgent 399 0 5 0) ∧
    (¬ heldState (mkAgent 399 0 5 0).state →
      (updateAgentMovement (simBoundary.speed * (1/60)) simBoundary 0).agent? 0 =
        some { mkAgent 399 0 5 0 with position := (mkAgent 399 0 5 0).position.add ((mkAgent 399 0 5 0).velocity.multiplyScalar (simBoundary.speed * (1/60))) }) ∧
    (heldState (mkAgent 399 0 5 0).state →
      ∃ a', (updateAgentMovement (simBoundary.speed * (1/60)) simBoundary 0).agent? 0 = some a' ∧
        a'.position.x = (mkAgent 399 0 5 0).position.x ∧
        a'.position.z = (mkAgent 399 0 5 0).position.z ∧
        a'.velocity = (mkAgent 399 0 5 0).velocity ∧
        a'.state = (mkAgent 399 0 5 0).state) :=
  ⟨rfl, movement_integration simBoundary (1/60) 0 (mkAgent 399 0 5 0) rfl rfl rfl⟩

/-! ## C3: processQueue drops stale entries but does not continue in-call -/

/-- **C3** (counterexample to the claim as stated): portal `(0, true)` is
unoccupied with queue `[0, 1]`; agent 0 is a stale entry (`WANDERING`),
agent 1 is properly `WAITING_ENTRY`. After `processPortalQueues`, the stale
entry is dropped and marked `WANDERING` — but agent 1, the next queued
agent, is NOT promoted within the same call: it stays `WAITING_ENTRY` and
the portal stays unoccupied with queue `[1]`. -/
theorem processqueue_no_continue_counterexample :
    ((processPortalQueues simStaleQueue).agent? 1).map Agent.state = some .WAITING_ENTRY ∧
    ((processPortalQueues simStaleQueue).agent? 0).map Agent.state = some .WANDERING ∧
    ((processPortalQueues simStaleQueue).portal? (0, true)).map
      (fun p => (p.isOccupied, p.queue)) = some (false, [1]) :=
  ⟨rfl, rfl, rfl⟩

/-- **C3** (amended): for an unoccupied portal with a non-empty queue, the
queue processing pops the front agent; if it is in the expected waiting
state it is promoted to the transit state and the portal re-acquired on
its behalf; otherwise the entry is dropped and the agent is marked
`WANDERING`, and the manager moves on WITHOUT trying the next queued agent
in the same call — the portal stays unoccupied and every other agent is
untouched until a later `processPortalQueues` invocation. -/
theorem processqueue_pop_promote_or_drop (s : Sim) (k : ℕ) (e : Bool) (p : Portal) (j : ℕ)
    (rest : List ℕ) (b : Agent) (hp : s.portal? (k, e) = some p) (hocc : p.isOccupied = false)
    (hq : p.queue = j :: rest) (hb : s.agent? j = some b) :
    (b.state = waitState e →
      ∃ p' b', (processQueueStep s k e).portal? (k, e) = some p' ∧ p'.isOccupied = true ∧
        p'.queue = rest ∧ (processQueueStep s k e).agent? j = some b' ∧
        b'.state = transitState e ∧ b'.portalTarget = b.portalTarget) ∧
    (b.state ≠ waitState e →
      ∃ p', (processQueueStep s k e).portal? (k, e) = some p' ∧ p'.isOccupied = false ∧
        p'.queue = rest ∧
        (processQueueStep s k e).agent? j = some { b with state := .WANDERING } ∧
        ∀ i, i ≠ j → (processQueueStep s k e).agent? i = s.agent? i) := by
  unfold processQueueStep
  rw [hp]
  simp only [hocc, Bool.false_eq_true, if_false, hq, hb]
  constructor
  · intro hst
    rw [if_pos hst]
    refine ⟨{ p with queue := rest, isOccupied := true },
      { b with state := transitState e,
               velocity := if e then (p.faceNormal.negate).multiplyScalar (AGENT_MOVE_SPEED * 0.8)
                           else p.faceNormal.multiplyScalar AGENT_MOVE_SPEED },
      ?_, rfl, rfl, ?_, rfl, rfl⟩
    · rw [Sim.portal?_setAgent, Sim.portal?_setPortal_self hp]
    · rw [Sim.agent?_setAgent_self]
      rw [Sim.agent?_setPortal]
      exact hb
  · intro hst
    rw [if_neg hst]
    refine ⟨{ p with isOccupied := false, queue := rest }, ?_, rfl, rfl, ?_, ?_⟩
    · rw [Sim.portal?_setAgent, Sim.portal?_setPortal_self hp]
    · rw [Sim.agent?_setAgent_self]
      rw [Sim.agent?_setPortal]
      exact hb
    · intro i hi
      rw [Sim.agent?_setAgent_ne _ _ hi, Sim.agent?_setPortal]

/-- Witness for the amended C3 at the stale-queue scenario. -/
theorem processqueue_pop_promote_or_drop_witness :
    (agentStale.state = waitState true →
      ∃ p' b', (processQueueStep simStaleQueue 0 true).portal? (0, true) = some p' ∧
        p'.isOccupied = true ∧ p'.queue = [1] ∧
        (processQueueStep simStaleQueue 0 true).agent? 0 = some b' ∧
        b'.state = transitState true ∧ b'.portalTarget = agentStale.portalTarget) ∧
    (agentStale.state ≠ waitState true →
      ∃ p', (processQueueStep simStaleQueue 0 true).portal? (0, true) = some p' ∧
        p'.isOccupied = false ∧ p'.queue = [1] ∧
        (processQueueStep simStaleQueue 0 true).agent? 0 =
          some { agentStale with state := .WANDERING } ∧
        ∀ i, i ≠ 0 → (processQueueStep simStaleQueue 0 true).agent? i =
          simStaleQueue.agent? i) :=
  processqueue_pop_promote_or_drop simStaleQueue 0 true
    deptStaleQueue.entryPortal 0 [1] agentStale rfl rfl rfl rfl

/-! ## C10: population reset clamping -/

/-- Counterexample for C10 as originally stated: with a missing/`NaN` count
argument and a UI count input parsing to `-5`, `resetScene` records
`agentCount = -5` and spawns zero agents — the `|| 25` fallback value is
never clamped by `Math.max(1, ...)`, so "in every case the new population
equals the clamped count" (and the one-agent guarantee) fails on this path. -/
theorem reset_population_unclamped_counterexample :
    (resetScene defaultOracle none (some (-5)) simBoundary).agentCount = -5 ∧
    (resetScene defaultOracle none (some (-5)) simBoundary).agents.length = 0 ∧
    ¬ 1 ≤ (resetScene defaultOracle none (some (-5)) simBoundary).agents.length := by
  refine ⟨?_, ?_, ?_⟩
  · norm_num [resetScene]
  · norm_num [resetScene, spawnAgents]
  · norm_num [resetScene, spawnAgents]

/-- **C10 (amended)**: resetting with a numeric count `n` spawns exactly
`max 1 n` freshly created agents (0 or negative still yields one agent) and
records it as the new population target; a missing/`NaN` count falls back to
the UI input's parsed value when that parse is nonzero and to the default 25
when the parse fails or yields 0 — but the fallback value is NOT clamped:
a negative parsed value `k` is recorded as `agentCount = k` and the spawn
loop runs zero times. In every case the previous agents are replaced by
freshly spawned `WANDERING` agents. -/
theorem reset_population_clamped (o : Oracle) (s : Sim) (n : ℤ) (ui : Option ℤ) :
    ((resetScene o (some n) ui s).agents.length = (max 1 n).toNat ∧
     (resetScene o (some n) ui s).agentCount = max 1 n ∧
     1 ≤ (resetScene o (some n) ui s).agents.length ∧
     ∀ a ∈ (resetScene o (some n) ui s).agents, FreshAgent a) ∧
    ((resetScene o none none s).agents.length = 25 ∧
     (resetScene o none none s).agentCount = 25 ∧
     ∀ a ∈ (resetScene o none none s).agents, FreshAgent a) ∧
    (∀ k : ℤ, k ≠ 0 →
      (resetScene o none (some k) s).agents.length = k.toNat ∧
      (resetScene o none (some k) s).agentCount = k ∧
      ∀ a ∈ (resetScene o none (some k) s).agents, FreshAgent a) ∧
    ((resetScene o none (some 0) s).agents.length = 25 ∧
     (resetScene o none (some 0) s).agentCount = 25 ∧
     ∀ a ∈ (resetScene o none (some 0) s).agents, FreshAgent a) := by
  have hfresh : ∀ (m : ℕ) (a : Agent), a ∈ spawnAgents o s.modelBaseHeightOffset m →
      FreshAgent a := by
    intro m a ha
    obtain ⟨i, _, rfl⟩ := List.mem_map.mp ha
    exact ⟨rfl, rfl, rfl, rfl⟩
  have hlen : ∀ m : ℕ, (spawnAgents o s.modelBaseHeightOffset m).length = m := by
    intro m
    simp [spawnAgents]
  refine ⟨⟨by simp [resetScene, hlen], rfl, ?_,
      fun a ha => hfresh _ a (by simpa [resetScene] using ha)⟩,
    ⟨by simp [resetScene, hlen], rfl,
      fun a ha => hfresh _ a (by simpa [resetScene] using ha)⟩,
    fun k hk => ⟨?_, ?_, fun a ha => hfresh _ a (by simpa [resetScene] using ha)⟩,
    ⟨by simp [resetScene, hlen], by simp [resetScene],
      fun a ha => hfresh _ a (by simpa [resetScene] using ha)⟩⟩
  · simp only [resetScene, hlen]
    omega
  · simp [resetScene, hlen, hk]
  · simp [resetScene, hk]

/-- Witness for C10: numeric count `-3` is clamped to one agent, while the
`NaN`-argument fallback to a UI parse of `-5` is recorded unclamped and
spawns zero agents. -/
theorem reset_population_clamped_witness :
    ((resetScene defaultOracle (some (-3)) (some (-5)) simBoundary).agents.length =
        (max 1 (-3 : ℤ)).toNat ∧
     (resetScene defaultOracle (some (-3)) (some (-5)) simBoundary).agentCount =
        max 1 (-3 : ℤ) ∧
     1 ≤ (resetScene defaultOracle (some (-3)) (some (-5)) simBoundary).agents.length ∧
     ∀ a ∈ (resetScene defaultOracle (some (-3)) (some (-5)) simBoundary).agents,
        FreshAgent a) ∧
    ((resetScene defaultOracle none (some (-5)) simBoundary).agents.length =
        (-5 : ℤ).toNat ∧
     (resetScene defaultOracle none (some (-5)) simBoundary).agentCount = -5 ∧
     ∀ a ∈ (resetScene defaultOracle none (some (-5)) simBoundary).agents, FreshAgent a) :=
  ⟨(reset_population_clamped defaultOracle simBoundary (-3) (some (-5))).1,
   (reset_population_clamped defaultOracle simBoundary (-3) (some (-5))).2.2.1 (-5)
     (by norm_num)⟩

/-! ## C9: the agent-agent separation pass (positional nudge defect) -/

/-- **C9** (code bug): on the overlapping pair at distance 10 (overlap 2,
agents at `x = 5` and `x = -5`), the pass applies the correct push-apart
velocity impulse (`±1` along the normal), but the positional nudge uses the
in-place mutated `collisionNormal` — stale magnitude `pushFactor`, flipped
sign — so agent 0 moves to `x = 3.99` and agent 1 to `x = -3.99`: the pair
ends 7.98 apart, closer than the 10 it started with, instead of at
`5 + overlap/2 + 0.01 = 6.01` and `-6.01` ("nudge positions directly apart
... guarantee separation", the code's own stated intent). -/
theorem agent_agent_nudge_defect :
    ((handleAgentAgentCollisions simOverlapPair).agent? 0).map
      (fun a => (a.position.x, a.velocity.x)) = some (399/100, 1) ∧
    ((handleAgentAgentCollisions simOverlapPair).agent? 1).map
      (fun a => (a.position.x, a.velocity.x)) = some (-(399/100), -1) ∧
    (399/100 : ℚ) - (-(399/100)) < (mkAgent 5 0 0 0).position.distanceTo (mkAgent (-5) 0 0 0).position ∧
    (399/100 : ℚ) ≠ 5 + ((MIN_AGENT_SEPARATION - 10) / 2 + 0.01) := by
  refine ?_
  have hsq100 : ratSqrt 100 = 10 := by
    unfold ratSqrt
    norm_num
    rw [show (Int.toNat 100) = 100 from rfl, show (100:ℕ) = 10*10 from rfl, Nat.sqrt_eq]
    norm_num
  have hsq1 : ratSqrt 1 = 1 := by
    unfold ratSqrt
    norm_num
  have hpair : pairCollisionStep simOverlapPair 0 1 =
      (simOverlapPair.setAgent 0 { mkAgent 5 0 0 0 with position := ⟨399/100, 10, 0⟩, velocity := ⟨1, 0, 0⟩ }).setAgent 1 { mkAgent (-5) 0 0 0 with position := ⟨-(399/100), 10, 0⟩, velocity := ⟨-1, 0, 0⟩ } := by
    unfold pairCollisionStep
    rw [show simOverlapPair.agent? 0 = some (mkAgent 5 0 0 0) from rfl,
      show simOverlapPair.agent? 1 = some (mkAgent (-5) 0 0 0) from rfl]
    simp only []
    rw [if_neg (by simp [mkAgent])]
    rw [if_pos (by norm_num [mkAgent, Vec3.distanceToSquared, Vec3.sub, Vec3.lengthSq, Vec3.dot,
      MIN_AGENT_SEPARATION, MODEL_SCALE])]
    have hd : Vec3.distanceToSquared (mkAgent 5 0 0 0).position (mkAgent (-5) 0 0 0).position = 100 := by
      norm_num [mkAgent, Vec3.distanceToSquared, Vec3.sub, Vec3.lengthSq, Vec3.dot]
    rw [hd, hsq100]
    have hnorm : ((mkAgent 5 0 0 0).position.sub (mkAgent (-5) 0 0 0).position).normalize = ⟨1, 0, 0⟩ := by
      unfold Vec3.normalize Vec3.length
      norm_num [mkAgent, Vec3.sub, Vec3.lengthSq, Vec3.dot, hsq100, Vec3.multiplyScalar, Vec3.mk.injEq]
    rw [hnorm]
    have hclampA : ((mkAgent 5 0 0 0).velocity.add ((Vec3.mk 1 0 0).multiplyScalar ((MIN_AGENT_SEPARATION - 10) * 0.5))).clampLength 0 (AGENT_MOVE_SPEED * 1.5) = ⟨1, 0, 0⟩ := by
      unfold Vec3.clampLength Vec3.length
      norm_num [mkAgent, Vec3.add, Vec3.multiplyScalar, Vec3.lengthSq, Vec3.dot,
        MIN_AGENT_SEPARATION, AGENT_MOVE_SPEED, MODEL_SCALE, hsq1, Vec3.mk.injEq]
    rw [hclampA]
    have hclampB : ((mkAgent (-5) 0 0 0).velocity.add ((Vec3.mk 1 0 0).negate.multiplyScalar ((MIN_AGENT_SEPARATION - 10) * 0.5))).clampLength 0 (AGENT_MOVE_SPEED * 1.5) = ⟨-1, 0, 0⟩ := by
      unfold Vec3.clampLength Vec3.length
      norm_num [mkAgent, Vec3.add, Vec3.negate, Vec3.multiplyScalar, Vec3.lengthSq, Vec3.dot,
        MIN_AGENT_SEPARATION, AGENT_MOVE_SPEED, MODEL_SCALE, hsq1, Vec3.mk.injEq]
    rw [hclampB]
    norm_num [mkAgent, Vec3.add, Vec3.negate, Vec3.multiplyScalar, Vec3.setY,
      MIN_AGENT_SEPARATION, MODEL_SCALE, Agent.mk.injEq, Vec3.mk.injEq]
  have hr2 : List.range 2 = [0, 1] := by simp [List.range_succ]
  have hall : handleAgentAgentCollisions simOverlapPair =
      (simOverlapPair.setAgent 0 { mkAgent 5 0 0 0 with position := ⟨399/100, 10, 0⟩, velocity := ⟨1, 0, 0⟩ }).setAgent 1 { mkAgent (-5) 0 0 0 with position := ⟨-(399/100), 10, 0⟩, velocity := ⟨-1, 0, 0⟩ } := by
    unfold handleAgentAgentCollisions
    simp only [show simOverlapPair.agents.length = 2 from rfl, hr2,
      List.foldl_cons, List.foldl_nil, List.drop_succ_cons, List.drop_nil, List.drop_zero]
    rw [hpair]
  have hd10 : (mkAgent 5 0 0 0).position.distanceTo (mkAgent (-5) 0 0 0).position = 10 := by
    unfold Vec3.distanceTo
    norm_num [mkAgent, Vec3.distanceToSquared, Vec3.sub, Vec3.lengthSq, Vec3.dot, hsq100]
  rw [hall, hd10]
  refine ⟨rfl, rfl, by norm_num, by norm_num [MIN_AGENT_SEPARATION, MODEL_SCALE]⟩


/-- Witness for C2 at the stale-queue state (queue `[0, 1]`). -/
theorem queue_fifo_witness :
    ∃ p' pushed d, (updateAgents defaultOracle 1 simStaleQueue).portal? (0, true) = some p' ∧
      d ≤ 1 ∧ p'.queue = (deptStaleQueue.entryPortal.queue ++ pushed).drop d ∧
      ∀ ia ib : ℕ, ia < ib → ib < deptStaleQueue.entryPortal.queue.length →
        p'.queue.get? (ib - d) = deptStaleQueue.entryPortal.queue.get? ib ∧
        (d ≤ ia → p'.queue.get? (ia - d) = deptStaleQueue.entryPortal.queue.get? ia) :=
  queue_fifo defaultOracle 1 simStaleQueue (0, true) deptStaleQueue.entryPortal rfl

/-! ## C5: the floor-boundary fallback -/

/-- **C5**: an agent in `GOING_TO_DEPT`, `ENTERING`, `GOING_TO_EXIT` or
`EXITING` that suffers a floor-boundary bounce ends the environment
collision pass in `WANDERING` with target department, target portal and
target position cleared, and the portal it held while `ENTERING`/`EXITING`
(occupied on its behalf) ends the pass released. -/
lemma core_boundaryBounce (a : Agent) :
    (boundaryBounce a).1.state = a.state ∧
    (boundaryBounce a).1.targetDepartment = a.targetDepartment ∧
    (boundaryBounce a).1.portalTarget = a.portalTarget ∧
    (boundaryBounce a).1.targetPosition = a.targetPosition := by
  unfold boundaryBounce
  split <;> (simp only []; split) <;> simp

lemma releaseHeldPortal_releases (a : Agent) (s : Sim) {pt : PortalRef} {p : Portal}
    (hpt : a.portalTarget = some pt) (hst : a.state = .ENTERING ∨ a.state = .EXITING)
    (hp : s.portal? pt = some p) :
    ∃ p', (releaseHeldPortal a s).portal? pt = some p' ∧ p'.isOccupied = false := by
  unfold releaseHeldPortal
  rw [hpt]
  simp only []
  rw [if_pos hst, hp]
  simp only []
  by_cases hocc : p.isOccupied = true
  · rw [if_pos hocc]
    exact ⟨{ p with isOccupied := false }, Sim.portal?_setPortal_self hp _, rfl⟩
  · rw [if_neg hocc]
    exact ⟨p, hp, by simpa using hocc⟩

/-- A cleared `WANDERING` agent passes through the department-wall loop with
its state machine fields untouched and every portal untouched. -/
lemma deptCollisionStep_cleared (o : Oracle) (i : ℕ) (s : Sim) (k : ℕ) (a : Agent)
    (ha : s.agent? i = some a) (hst : a.state = .WANDERING)
    (htd : a.targetDepartment = none) (hpt : a.portalTarget = none)
    (htp : a.targetPosition = none) :
    ∃ a', (deptCollisionStep o i s k).agent? i = some a' ∧ a'.state = .WANDERING ∧
      a'.targetDepartment = none ∧ a'.portalTarget = none ∧ a'.targetPosition = none ∧
      ∀ pt2, (deptCollisionStep o i s k).portal? pt2 = s.portal? pt2 := by
  simp only [deptCollisionStep]
  rw [ha]
  cases hd : s.dept? k with
  | none => exact ⟨a, ha, hst, htd, hpt, htp, fun pt2 => rfl⟩
  | some d =>
    cases hray : o.rayHit i k with
    | none => exact ⟨a, ha, hst, htd, hpt, htp, fun pt2 => rfl⟩
    | some hit =>
      simp only [hst]
      rw [if_neg (by simp), if_neg (by simp)]
      refine ⟨_, Sim.agent?_setAgent_self _ ha, rfl, htd, hpt, htp, fun pt2 => rfl⟩

lemma foldl_deptCollisionStep_cleared (o : Oracle) (i : ℕ) (L : List ℕ) (s : Sim) (a : Agent)
    (ha : s.agent? i = some a) (hst : a.state = .WANDERING)
    (htd : a.targetDepartment = none) (hpt : a.portalTarget = none)
    (htp : a.targetPosition = none) :
    ∃ a', (L.foldl (deptCollisionStep o i) s).agent? i = some a' ∧ a'.state = .WANDERING ∧
      a'.targetDepartment = none ∧ a'.portalTarget = none ∧ a'.targetPosition = none ∧
      ∀ pt2, (L.foldl (deptCollisionStep o i) s).portal? pt2 = s.portal? pt2 := by
  induction L generalizing s a with
  | nil => exact ⟨a, ha, hst, htd, hpt, htp, fun pt2 => rfl⟩
  | cons k L ih =>
    rw [List.foldl_cons]
    obtain ⟨a1, h1, h2, h3, h4, h5, h6⟩ := deptCollisionStep_cleared o i s k a ha hst htd hpt htp
    obtain ⟨a2, g1, g2, g3, g4, g5, g6⟩ := ih _ _ h1 h2 h3 h4 h5
    exact ⟨a2, g1, g2, g3, g4, g5, fun pt2 => by rw [g6, h6]⟩

theorem boundary_fallback_reverts_to_wandering (o : Oracle) (s : Sim) (i : ℕ) (a : Agent)
    (ha : s.agent? i = some a) (hstate : transitGoalState a.state)
    (hbounce : (boundaryBounce a).2 = true) :
    (∃ a', (handleAgentEnvironmentCollisions o s i).agent? i = some a' ∧
      a'.state = .WANDERING ∧ a'.targetDepartment = none ∧ a'.portalTarget = none ∧
      a'.targetPosition = none) ∧
    (∀ pt p, a.portalTarget = some pt → (a.state = .ENTERING ∨ a.state = .EXITING) →
      s.portal? pt = some p →
      ∃ p', (handleAgentEnvironmentCollisions o s i).portal? pt = some p' ∧
        p'.isOccupied = false) := by
  obtain ⟨hc1, hc2, hc3, hc4⟩ := core_boundaryBounce a
  have hcond : (boundaryBounce a).2 = true ∧ transitGoalState (boundaryBounce a).1.state :=
    ⟨hbounce, hc1 ▸ hstate⟩
  have hbp : boundaryPhase s i a = (releaseHeldPortal (boundaryBounce a).1 s).setAgent i
      (resetToWandering (boundaryBounce a).1) := by
    simp only [boundaryPhase]
    rw [if_pos hcond]
    rfl
  have hsa : (boundaryPhase s i a).agent? i = some (resetToWandering (boundaryBounce a).1) := by
    rw [hbp]
    exact Sim.agent?_setAgent_self _ (by rw [agent?_releaseHeldPortal]; exact ha)
  have hport : ∀ pt p, a.portalTarget = some pt → (a.state = .ENTERING ∨ a.state = .EXITING) →
      s.portal? pt = some p →
      ∃ p', (boundaryPhase s i a).portal? pt = some p' ∧ p'.isOccupied = false := by
    intro pt p hpt hEE hp
    obtain ⟨p', h1, h2⟩ := releaseHeldPortal_releases (boundaryBounce a).1 s
      (hc3.trans hpt) (by rw [hc1]; exact hEE) hp
    exact ⟨p', by rw [hbp]; simpa using h1, h2⟩
  have henv : (∃ a', (handleAgentEnvironmentCollisions o s i).agent? i = some a' ∧
      a'.state = .WANDERING ∧ a'.targetDepartment = none ∧ a'.portalTarget = none ∧
      a'.targetPosition = none) ∧
      ∀ pt2, (handleAgentEnvironmentCollisions o s i).portal? pt2 =
        (boundaryPhase s i a).portal? pt2 := by
    unfold handleAgentEnvironmentCollisions
    rw [ha]
    simp only [hsa]
    split
    · exact ⟨⟨_, hsa, rfl, rfl, rfl, rfl⟩, fun pt2 => rfl⟩
    · obtain ⟨a2, g1, g2, g3, g4, g5, g6⟩ :=
        foldl_deptCollisionStep_cleared o i _ (boundaryPhase s i a) _ hsa rfl rfl rfl rfl
      exact ⟨⟨a2, g1, g2, g3, g4, g5⟩, g6⟩
  refine ⟨henv.1, ?_⟩
  intro pt p hpt hEE hp
  obtain ⟨p', h1, h2⟩ := hport pt p hpt hEE hp
  exact ⟨p', by rw [henv.2 pt]; exact h1, h2⟩

/-- Witness for C5: the out-of-bounds `ENTERING` agent holding an occupied
entry portal. -/
theorem boundary_fallback_witness :
    (∃ a', (handleAgentEnvironmentCollisions defaultOracle simEnteringOOB 0).agent? 0 = some a' ∧
      a'.state = .WANDERING ∧ a'.targetDepartment = none ∧ a'.portalTarget = none ∧
      a'.targetPosition = none) ∧
    (∀ pt p, agentEnteringOOB.portalTarget = some pt →
      (agentEnteringOOB.state = .ENTERING ∨ agentEnteringOOB.state = .EXITING) →
      simEnteringOOB.portal? pt = some p →
      ∃ p', (handleAgentEnvironmentCollisions defaultOracle simEnteringOOB 0).portal? pt = some p' ∧
        p'.isOccupied = false) :=
  boundary_fallback_reverts_to_wandering defaultOracle simEnteringOOB 0 agentEnteringOOB rfl
    (Or.inr (Or.inl rfl))
    (by
      have habs : |(399 : ℚ)| = 399 := abs_of_pos (by norm_num)
      have habs0 : |(0 : ℚ)| = 0 := abs_zero
      unfold boundaryBounce
      norm_num [agentEnteringOOB, mkAgent, floorHalfWidth, floorHalfDepth, checkRadius,
        MODEL_SCALE, habs, habs0])

/-! ## C7: the floor-height invariant -/

/-- **C7**: at the end of every (unpaused, department-bearing) tick every
agent sits exactly at its base floor height, and each positional adjustment
inside a tick — the movement step, the agent-agent nudge, the
environment-pass nudge — re-clamps the adjusted agent's `position.y` to its
`baseHeight`. -/
theorem floor_height_invariant (o : Oracle) (delta : ℚ) (s : Sim)
    (hpause : s.isPaused = false) (hdept : s.departments.length ≠ 0) :
    (∀ i a', (updateAgents o delta s).agent? i = some a' →
      a'.position.y = a'.baseHeight) ∧
    (∀ f i a', (updateAgentMovement f s i).agent? i = some a' →
      a'.position.y = a'.baseHeight) ∧
    (∀ i j a a', i ≠ j → s.agent? i = some a → (pairCollisionStep s i j).agent? i = some a' →
      a' = a ∨ a'.position.y = a'.baseHeight) ∧
    (∀ i j b b', i ≠ j → s.agent? j = some b → (pairCollisionStep s i j).agent? j = some b' →
      b' = b ∨ b'.position.y = b'.baseHeight) ∧
    (∀ o2 i k a a', s.agent? i = some a → (deptCollisionStep o2 i s k).agent? i = some a' →
      a' = a ∨ a'.position.y = a'.baseHeight) := by
  refine ⟨?_, ?_, ?_, ?_, ?_⟩
  · intro i a' ha'
    unfold updateAgents at ha'
    rw [if_neg (by simp [hpause, hdept])] at ha'
    simp only [] at ha'
    obtain ⟨a1, h1, h2, h3⟩ := pos_processPortalQueues _ i a' ha'
    have hi : i ∈ List.range (handleAgentAgentCollisions s).agents.length := by
      have hlt := Sim.agent?_lt_length h1
      rw [length_agents_sweep_fold] at hlt
      exact List.mem_range.mpr hlt
    have h4 := ybase_sweep_fold o delta (s.speed * delta) _ _ i hi a1 h1
    rw [h2, h3]
    exact h4
  · intro f i
    exact ybase_updateAgentMovement f s i
  · intro i j a a' hij ha ha'
    simp only [pairCollisionStep] at ha'
    repeat' split at ha'
    all_goals first
      | (left
         rw [ha] at ha'
         exact (Option.some_injective _ ha').symm
        )
      | (right
         rw [Sim.agent?_setAgent_ne _ _ hij, Sim.agent?_setAgent_self _ ha] at ha'
         cases ha'
         rfl)
  · intro i j b b' hij hb hb'
    simp only [pairCollisionStep] at hb'
    repeat' split at hb'
    all_goals first
      | (left
         rw [hb] at hb'
         exact (Option.some_injective _ hb').symm)
      | (right
         rw [Sim.agent?_setAgent_self _
            (by rw [Sim.agent?_setAgent_ne _ _ (Ne.symm hij)]; exact hb)] at hb'
         cases hb'
         rfl)
  · intro o2 i k a a' ha ha'
    simp only [deptCollisionStep] at ha'
    repeat' split at ha'
    all_goals first
      | (left
         rw [ha] at ha'
         exact (Option.some_injective _ ha').symm)
      | (right
         rw [Sim.agent?_setAgent_self _ (by assumption)] at ha'
         cases ha'
         rfl)
      | (right
         rw [Sim.agent?_setAgent_self _
            (show (releaseHeldPortal _ s).agent? i = some _ by
              rw [agent?_releaseHeldPortal]
              assumption)] at ha'
         cases ha'
         rfl)

/-! ## C6: the boundary bounce scenario -/

/-- **C6**: the agent at `(399, h, 0)` with velocity `(5, 0, 0)`, speed
multiplier 1, after one tick of `delta = 1/60`: `velocity.x = -5 < 0` and
`position.x = 396 = 400 - checkRadius`, clamped onto the boundary. -/
theorem boundary_bounce_scenario :
    ((updateAgents defaultOracle (1/60) simBoundary).agent? 0).map
        (fun a => (a.velocity.x, a.position.x)) = some (-5, 396) ∧
    (-5 : ℚ) < 0 ∧ (396 : ℚ) ≤ 400 - checkRadius ∧ (396 : ℚ) = floorHalfWidth - checkRadius := by
  refine ⟨?_, by norm_num, by norm_num [checkRadius, MODEL_SCALE],
    by norm_num [floorHalfWidth, checkRadius, MODEL_SCALE]⟩
  have hguard : (simBoundary.isPaused = true ∨ simBoundary.departments.length = 0) = False := by
    simp [simBoundary, baselineDepartments]
  have hr1 : List.range 1 = [0] := by simp [List.range_succ]
  have h1 : handleAgentAgentCollisions simBoundary = simBoundary := by
    unfold handleAgentAgentCollisions
    simp [simBoundary, hr1]
  have h2 : updateAgentState defaultOracle (1/60) simBoundary 0 = simBoundary := by
    unfold updateAgentState
    rw [show simBoundary.agent? 0 = some (mkAgent 399 0 5 0) from rfl]
    show stepWandering defaultOracle (1/60) 0 (mkAgent 399 0 5 0) simBoundary = simBoundary
    unfold stepWandering
    rw [if_neg (by norm_num [defaultOracle, halfU, DEPT_VISIT_CHANCE]),
        if_neg (by norm_num [defaultOracle, halfU, IDLE_CHANCE])]
  have hmove : (1 : ℚ) * (1/60) * 1 = 1/60 := by norm_num
  have h3 : updateAgentMovement (simBoundary.speed * (1/60)) simBoundary 0 =
      simBoundary.setAgent 0 { mkAgent 399 0 5 0 with position := ⟨4789/12, 10, 0⟩ } := by
    unfold updateAgentMovement
    rw [show simBoundary.agent? 0 = some (mkAgent 399 0 5 0) from rfl]
    simp only [heldState, mkAgent]
    rw [if_neg (by decide)]
    show simBoundary.setAgent 0 _ = _
    norm_num [mkAgent, simBoundary, Sim.setAgent, Vec3.add, Vec3.multiplyScalar, Vec3.setY,
      Agent.mk.injEq, Vec3.mk.injEq, Sim.mk.injEq]
  have h4 : handleAgentEnvironmentCollisions defaultOracle
      (simBoundary.setAgent 0 { mkAgent 399 0 5 0 with position := ⟨4789/12, 10, 0⟩ }) 0 =
      (simBoundary.setAgent 0 { mkAgent 399 0 5 0 with position := ⟨4789/12, 10, 0⟩ }).setAgent 0
        (mkAgent 396 0 (-5) 0) := by
    unfold handleAgentEnvironmentCollisions
    rw [show (simBoundary.setAgent 0 { mkAgent 399 0 5 0 with position := ⟨4789/12, 10, 0⟩ }).agent? 0
          = some { mkAgent 399 0 5 0 with position := ⟨4789/12, 10, 0⟩ } from rfl]
    have habs1 : |(4789/12 : ℚ)| = 4789/12 := abs_of_pos (by norm_num)
    have habs0 : |(0 : ℚ)| = 0 := abs_zero
    have hbb : boundaryBounce { mkAgent 399 0 5 0 with position := ⟨4789/12, 10, 0⟩ } =
        (mkAgent 396 0 (-5) 0, true) := by
      unfold boundaryBounce
      norm_num [mkAgent, signQ, floorHalfWidth, floorHalfDepth, checkRadius, MODEL_SCALE,
        habs1, habs0, Agent.mk.injEq, Vec3.mk.injEq, Prod.ext_iff]
    simp only [boundaryPhase, hbb]
    rw [if_neg (by simp [transitGoalState, mkAgent])]
    rw [show ((simBoundary.setAgent 0 { mkAgent 399 0 5 0 with position := ⟨4789/12, 10, 0⟩ }).setAgent 0
          (mkAgent 396 0 (-5) 0)).agent? 0 = some (mkAgent 396 0 (-5) 0) from rfl]
    simp only []
    rw [if_neg (by norm_num [mkAgent, Vec3.lengthSq, Vec3.dot, VELOCITY_THRESHOLD_SQ, MODEL_SCALE])]
    exact foldl_deptCollisionStep_noHit _ _ (fun k => rfl)
  have hqueues : processPortalQueues
      ((simBoundary.setAgent 0 { mkAgent 399 0 5 0 with position := ⟨4789/12, 10, 0⟩ }).setAgent 0
        (mkAgent 396 0 (-5) 0)) =
      (simBoundary.setAgent 0 { mkAgent 399 0 5 0 with position := ⟨4789/12, 10, 0⟩ }).setAgent 0
        (mkAgent 396 0 (-5) 0) := by
    apply processPortalQueues_emptyQueues
    intro pt p hp
    obtain ⟨d, hd, hpd⟩ := Sim.dept?_of_portal? hp
    have hmem : d ∈ baselineDepartments := by
      have : d ∈ ((simBoundary.setAgent 0 { mkAgent 399 0 5 0 with position := ⟨4789/12, 10, 0⟩ }).setAgent 0
          (mkAgent 396 0 (-5) 0)).departments := List.get?_mem hd
      simpa [simBoundary] using this
    subst hpd
    fin_cases hmem <;> cases hbe : pt.2 <;> simp [portalOf, baselineDepartments, mkPortal]
  unfold updateAgents
  rw [if_neg (show ¬(simBoundary.isPaused = true ∨ simBoundary.departments.length = 0) by
    simp [simBoundary, baselineDepartments])]
  show Option.map (fun a => (a.velocity.x, a.position.x))
      ((processPortalQueues (((handleAgentAgentCollisions simBoundary).agents.length |> List.range).foldl
        (agentSweepStep defaultOracle (1/60) (simBoundary.speed * (1/60)))
        (handleAgentAgentCollisions simBoundary))).agent? 0) = some (-5, 396)
  rw [h1, show (List.range simBoundary.agents.length) = [0] from hr1]
  simp only [List.foldl_cons, List.foldl_nil]
  unfold agentSweepStep
  rw [h2, h3, h4, hqueues]
  rfl

/-! ## C1: the portal occupancy exclusivity invariant -/

lemma isWaiting_waitState (e : Bool) : isWaiting (waitState e) := by
  cases e <;> simp [isWaiting, waitState]

lemma isTransit_transitState (e : Bool) : isTransit (transitState e) := by
  cases e <;> simp [isTransit, transitState]

lemma not_isTransit_waitState (e : Bool) : ¬ isTransit (waitState e) := by
  cases e <;> simp [isTransit, waitState]

lemma not_isWaiting_transitState (e : Bool) : ¬ isWaiting (transitState e) := by
  cases e <;> simp [isWaiting, transitState]

lemma not_isWaiting_of_isTransit {st : AgentState} (h : isTransit st) : ¬ isWaiting st := by
  rcases h with rfl | rfl <;> simp [isWaiting]

lemma Sim.dept?_lt_length {s : Sim} {k : ℕ} {d : Department} (h : s.dept? k = some d) :
    k < s.departments.length :=
  (List.get?_eq_some.mp h).1

lemma Sim.dept?_eq_some_of_lt {s : Sim} {k : ℕ} (h : k < s.departments.length) :
    ∃ d, s.dept? k = some d := by
  unfold Sim.dept?
  rw [List.get?_eq_getElem?, List.getElem?_eq_getElem h]
  exact ⟨_, rfl⟩

lemma Sim.portal?_eq_some_of_lt {s : Sim} {k : ℕ} (e : Bool)
    (h : k < s.departments.length) : ∃ p, s.portal? (k, e) = some p := by
  obtain ⟨d, hd⟩ := Sim.dept?_eq_some_of_lt h
  exact ⟨portalOf d e, by unfold Sim.portal?; rw [hd]; rfl⟩

lemma agent_core_state {a b : Agent} (h : a.core = b.core) : a.state = b.state :=
  congrArg (fun c => c.1) h

lemma agent_core_td {a b : Agent} (h : a.core = b.core) :
    a.targetDepartment = b.targetDepartment :=
  congrArg (fun c => c.2.1) h

lemma agent_core_pt {a b : Agent} (h : a.core = b.core) : a.portalTarget = b.portalTarget :=
  congrArg (fun c => c.2.2.1) h

lemma agent_core_prev {a b : Agent} (h : a.core = b.core) : a.previousState = b.previousState :=
  congrArg (fun c => c.2.2.2) h

lemma agentOk_core {D : ℕ} {a b : Agent} (h : b.core = a.core) (hOk : AgentOk D a) :
    AgentOk D b := by
  unfold AgentOk at hOk ⊢
  rw [agent_core_state h, agent_core_td h, agent_core_pt h, agent_core_prev h]
  exact hOk


lemma skeletonEq_refl (s : Sim) : SkeletonEq s s := ⟨rfl, fun _ => rfl⟩

lemma skeletonEq_trans {s t u : Sim} (h1 : SkeletonEq s t) (h2 : SkeletonEq t u) :
    SkeletonEq s u :=
  ⟨h2.1.trans h1.1, fun j => (h2.2 j).trans (h1.2 j)⟩

lemma skeletonEq_setAgent_core {s : Sim} {i : ℕ} {a : Agent} (a' : Agent)
    (ha : s.agent? i = some a) (hc : a'.core = a.core) : SkeletonEq s (s.setAgent i a') := by
  refine ⟨rfl, fun j => ?_⟩
  by_cases hj : j = i
  · subst hj
    rw [Sim.agent?_setAgent_self _ ha, ha]
    simp [hc]
  · rw [Sim.agent?_setAgent_ne _ _ hj]

lemma skeletonEq_agent {s s' : Sim} (h : SkeletonEq s s') {j : ℕ} {b : Agent}
    (hb : s.agent? j = some b) : ∃ b', s'.agent? j = some b' ∧ b'.core = b.core := by
  have hm := h.2 j
  rw [hb] at hm
  cases hb' : s'.agent? j with
  | none => rw [hb'] at hm; simp at hm
  | some b' =>
    rw [hb'] at hm
    simp only [Option.map_some', Option.some.injEq] at hm
    exact ⟨b', rfl, hm⟩

lemma skeletonEq_agent_rev {s s' : Sim} (h : SkeletonEq s s') {j : ℕ} {b' : Agent}
    (hb' : s'.agent? j = some b') : ∃ b, s.agent? j = some b ∧ b'.core = b.core := by
  have hm := h.2 j
  rw [hb'] at hm
  cases hb : s.agent? j with
  | none => rw [hb] at hm; simp at hm
  | some b =>
    rw [hb] at hm
    simp only [Option.map_some', Option.some.injEq] at hm
    exact ⟨b, rfl, hm⟩

lemma skeletonEq_portal {s s' : Sim} (h : SkeletonEq s s') (pt : PortalRef) :
    s'.portal? pt = s.portal? pt := by
  unfold Sim.portal? Sim.dept?
  rw [h.1]

lemma inv_skeletonEq {s s' : Sim} (h : SkeletonEq s s') (hI : Inv s) : Inv s' := by
  have hD : s'.departments.length = s.departments.length := by rw [h.1]
  constructor
  · intro i a ha
    obtain ⟨b, hb, hc⟩ := skeletonEq_agent_rev h ha
    rw [hD]
    exact agentOk_core hc (hI.agentOk i b hb)
  · intro pt p hp j hj
    rw [skeletonEq_portal h] at hp
    obtain ⟨b, hb, hst, hptg⟩ := hI.queueMem pt p hp j hj
    obtain ⟨b', hb', hc⟩ := skeletonEq_agent h hb
    exact ⟨b', hb', by rw [agent_core_state hc, hst], by rw [agent_core_pt hc, hptg]⟩
  · intro pt p hp
    rw [skeletonEq_portal h] at hp
    exact hI.queueNodup pt p hp
  · intro pt p hp hocc
    rw [skeletonEq_portal h] at hp
    obtain ⟨w, aw, hw, hwst, hwpt, huniq⟩ := hI.occupiedSome pt p hp hocc
    obtain ⟨aw', hw', hc⟩ := skeletonEq_agent h hw
    refine ⟨w, aw', hw', by rw [agent_core_state hc, hwst],
      by rw [agent_core_pt hc, hwpt], ?_⟩
    intro j b' hb' hbst hbpt
    obtain ⟨b, hb, hc2⟩ := skeletonEq_agent_rev h hb'
    exact huniq j b hb (by rw [← agent_core_state hc2, hbst])
      (by rw [← agent_core_pt hc2, hbpt])
  · intro pt p hp hocc j b' hb' hcontra
    rw [skeletonEq_portal h] at hp
    obtain ⟨b, hb, hc⟩ := skeletonEq_agent_rev h hb'
    exact hI.occupiedNone pt p hp hocc j b hb
      ⟨by rw [← agent_core_state hc, hcontra.1], by rw [← agent_core_pt hc, hcontra.2]⟩


lemma not_mem_queue_of_not_waiting {s : Sim} (hI : Inv s) {i : ℕ} {a : Agent}
    (ha : s.agent? i = some a) (haW : ¬ isWaiting a.state) :
    ∀ pt p, s.portal? pt = some p → i ∉ p.queue := by
  intro pt p hp hmem
  obtain ⟨b, hb, hst, _⟩ := hI.queueMem pt p hp i hmem
  rw [ha] at hb
  obtain rfl := Option.some.inj hb
  exact haW (by rw [hst]; exact isWaiting_waitState pt.2)

lemma inv_setAgent_benign {s : Sim} {i : ℕ} {a a' : Agent} (hI : Inv s)
    (ha : s.agent? i = some a)
    (haW : ¬ isWaiting a.state) (haT : ¬ isTransit a.state)
    (h'T : ¬ isTransit a'.state)
    (hOk : AgentOk s.departments.length a') :
    Inv (s.setAgent i a') := by
  constructor
  · intro j b hb
    by_cases hj : j = i
    · subst hj
      rw [Sim.agent?_setAgent_self _ ha] at hb
      obtain rfl := Option.some.inj hb
      simpa using hOk
    · rw [Sim.agent?_setAgent_ne _ _ hj] at hb
      simpa using hI.agentOk j b hb
  · intro pt p hp j hj
    rw [Sim.portal?_setAgent] at hp
    obtain ⟨b, hb, hst, hptg⟩ := hI.queueMem pt p hp j hj
    have hj' : j ≠ i := by
      intro hji
      subst hji
      rw [ha] at hb
      obtain rfl := Option.some.inj hb
      exact haW (by rw [hst]; exact isWaiting_waitState pt.2)
    exact ⟨b, by rw [Sim.agent?_setAgent_ne _ _ hj']; exact hb, hst, hptg⟩
  · intro pt p hp
    rw [Sim.portal?_setAgent] at hp
    exact hI.queueNodup pt p hp
  · intro pt p hp hocc
    rw [Sim.portal?_setAgent] at hp
    obtain ⟨w, aw, hw, hwst, hwpt, huniq⟩ := hI.occupiedSome pt p hp hocc
    have hwi : w ≠ i := by
      intro hwi
      subst hwi
      rw [ha] at hw
      obtain rfl := Option.some.inj hw
      exact haT (by rw [hwst]; exact isTransit_transitState pt.2)
    refine ⟨w, aw, by rw [Sim.agent?_setAgent_ne _ _ hwi]; exact hw, hwst, hwpt, ?_⟩
    intro j b hb hbst hbpt
    by_cases hj : j = i
    · subst hj
      rw [Sim.agent?_setAgent_self _ ha] at hb
      obtain rfl := Option.some.inj hb
      exact absurd (show isTransit a'.state by rw [hbst]; exact isTransit_transitState pt.2) h'T
    · rw [Sim.agent?_setAgent_ne _ _ hj] at hb
      exact huniq j b hb hbst hbpt
  · intro pt p hp hocc j b hb hcontra
    rw [Sim.portal?_setAgent] at hp
    by_cases hj : j = i
    · subst hj
      rw [Sim.agent?_setAgent_self _ ha] at hb
      obtain rfl := Option.some.inj hb
      exact h'T (by rw [hcontra.1]; exact isTransit_transitState pt.2)
    · rw [Sim.agent?_setAgent_ne _ _ hj] at hb
      exact hI.occupiedNone pt p hp hocc j b hb hcontra


lemma inv_enqueue {s : Sim} {i : ℕ} {a a' : Agent} {pt : PortalRef} {p : Portal} (hI : Inv s)
    (ha : s.agent? i = some a) (hp : s.portal? pt = some p)
    (haW : ¬ isWaiting a.state) (haT : ¬ isTransit a.state)
    (h'st : a'.state = waitState pt.2) (h'pt : a'.portalTarget = some pt)
    (hOk : AgentOk s.departments.length a') :
    Inv ((s.setPortal pt { p with queue := p.queue ++ [i] }).setAgent i a') := by
  have hiq := not_mem_queue_of_not_waiting hI ha haW
  have h'T : ¬ isTransit a'.state := by rw [h'st]; exact not_isTransit_waitState pt.2
  have hta : (s.setPortal pt { p with queue := p.queue ++ [i] }).agent? i = some a := by
    rw [Sim.agent?_setPortal]; exact ha
  constructor
  · intro j b hb
    simp only [Sim.departments_setAgent, Sim.length_departments_setPortal]
    by_cases hj : j = i
    · subst hj
      rw [Sim.agent?_setAgent_self _ hta] at hb
      obtain rfl := Option.some.inj hb
      exact hOk
    · rw [Sim.agent?_setAgent_ne _ _ hj, Sim.agent?_setPortal] at hb
      exact hI.agentOk j b hb
  · intro pt'' p'' hp'' j hj
    rw [Sim.portal?_setAgent] at hp''
    by_cases hpt : pt'' = pt
    · subst hpt
      rw [Sim.portal?_setPortal_self hp] at hp''
      obtain rfl := Option.some.inj hp''
      rcases List.mem_append.mp hj with hjold | hjnew
      · have hji : j ≠ i := fun h => hiq pt'' p hp (h ▸ hjold)
        obtain ⟨b, hb, hbst, hbpt⟩ := hI.queueMem pt'' p hp j hjold
        exact ⟨b, by rw [Sim.agent?_setAgent_ne _ _ hji, Sim.agent?_setPortal]; exact hb,
          hbst, hbpt⟩
      · rw [List.mem_singleton] at hjnew
        subst hjnew
        exact ⟨a', Sim.agent?_setAgent_self _ hta, h'st, h'pt⟩
    · rw [Sim.portal?_setPortal_ne _ _ _ hpt] at hp''
      have hji : j ≠ i := fun h => hiq pt'' p'' hp'' (h ▸ hj)
      obtain ⟨b, hb, hbst, hbpt⟩ := hI.queueMem pt'' p'' hp'' j hj
      exact ⟨b, by rw [Sim.agent?_setAgent_ne _ _ hji, Sim.agent?_setPortal]; exact hb,
        hbst, hbpt⟩
  · intro pt'' p'' hp''
    rw [Sim.portal?_setAgent] at hp''
    by_cases hpt : pt'' = pt
    · subst hpt
      rw [Sim.portal?_setPortal_self hp] at hp''
      obtain rfl := Option.some.inj hp''
      show (p.queue ++ [i]).Nodup
      rw [List.nodup_append]
      refine ⟨hI.queueNodup pt'' p hp, List.nodup_singleton i, ?_⟩
      intro x hx hxi
      rw [List.mem_singleton] at hxi
      subst hxi
      exact hiq pt'' p hp hx
    · rw [Sim.portal?_setPortal_ne _ _ _ hpt] at hp''
      exact hI.queueNodup pt'' p'' hp''
  · intro pt'' p'' hp'' hocc''
    rw [Sim.portal?_setAgent] at hp''
    by_cases hpt : pt'' = pt
    · subst hpt
      rw [Sim.portal?_setPortal_self hp] at hp''
      obtain rfl := Option.some.inj hp''
      have hocc' : p.isOccupied = true := hocc''
      obtain ⟨w, aw, hw, hwst, hwpt, huniq⟩ := hI.occupiedSome pt'' p hp hocc'
      have hwi : w ≠ i := by
        intro h
        subst h
        rw [ha] at hw
        obtain rfl := Option.some.inj hw
        exact haT (by rw [hwst]; exact isTransit_transitState pt''.2)
      refine ⟨w, aw, by rw [Sim.agent?_setAgent_ne _ _ hwi, Sim.agent?_setPortal]; exact hw,
        hwst, hwpt, ?_⟩
      intro j b hb hbst hbpt
      by_cases hj : j = i
      · subst hj
        rw [Sim.agent?_setAgent_self _ hta] at hb
        obtain rfl := Option.some.inj hb
        exact absurd (show isTransit a'.state by
          rw [hbst]; exact isTransit_transitState pt''.2) h'T
      · rw [Sim.agent?_setAgent_ne _ _ hj, Sim.agent?_setPortal] at hb
        exact huniq j b hb hbst hbpt
    · rw [Sim.portal?_setPortal_ne _ _ _ hpt] at hp''
      obtain ⟨w, aw, hw, hwst, hwpt, huniq⟩ := hI.occupiedSome pt'' p'' hp'' hocc''
      have hwi : w ≠ i := by
        intro h
        subst h
        rw [ha] at hw
        obtain rfl := Option.some.inj hw
        exact haT (by rw [hwst]; exact isTransit_transitState pt''.2)
      refine ⟨w, aw, by rw [Sim.agent?_setAgent_ne _ _ hwi, Sim.agent?_setPortal]; exact hw,
        hwst, hwpt, ?_⟩
      intro j b hb hbst hbpt
      by_cases hj : j = i
      · subst hj
        rw [Sim.agent?_setAgent_self _ hta] at hb
        obtain rfl := Option.some.inj hb
        exact absurd (show isTransit a'.state by
          rw [hbst]; exact isTransit_transitState pt''.2) h'T
      · rw [Sim.agent?_setAgent_ne _ _ hj, Sim.agent?_setPortal] at hb
        exact huniq j b hb hbst hbpt
  · intro pt'' p'' hp'' hocc'' j b hb hcontra
    rw [Sim.portal?_setAgent] at hp''
    by_cases hj : j = i
    · subst hj
      rw [Sim.agent?_setAgent_self _ hta] at hb
      obtain rfl := Option.some.inj hb
      exact h'T (by rw [hcontra.1]; exact isTransit_transitState pt''.2)
    · rw [Sim.agent?_setAgent_ne _ _ hj, Sim.agent?_setPortal] at hb
      by_cases hpt : pt'' = pt
      · subst hpt
        rw [Sim.portal?_setPortal_self hp] at hp''
        obtain rfl := Option.some.inj hp''
        exact hI.occupiedNone pt'' p hp (by exact hocc'') j b hb hcontra
      · rw [Sim.portal?_setPortal_ne _ _ _ hpt] at hp''
        exact hI.occupiedNone pt'' p'' hp'' hocc'' j b hb hcontra


lemma inv_acquire {s : Sim} {i : ℕ} {a a' : Agent} {pt : PortalRef} {p : Portal} (hI : Inv s)
    (ha : s.agent? i = some a) (hp : s.portal? pt = some p) (hocc : p.isOccupied = false)
    (haW : ¬ isWaiting a.state) (haT : ¬ isTransit a.state)
    (h'st : a'.state = transitState pt.2) (h'pt : a'.portalTarget = some pt)
    (hOk : AgentOk s.departments.length a') :
    Inv ((s.setPortal pt { p with isOccupied := true }).setAgent i a') := by
  have hiq := not_mem_queue_of_not_waiting hI ha haW
  have hta : (s.setPortal pt { p with isOccupied := true }).agent? i = some a := by
    rw [Sim.agent?_setPortal]; exact ha
  constructor
  · intro j b hb
    simp only [Sim.departments_setAgent, Sim.length_departments_setPortal]
    by_cases hj : j = i
    · subst hj
      rw [Sim.agent?_setAgent_self _ hta] at hb
      obtain rfl := Option.some.inj hb
      exact hOk
    · rw [Sim.agent?_setAgent_ne _ _ hj, Sim.agent?_setPortal] at hb
      exact hI.agentOk j b hb
  · intro pt'' p'' hp'' j hj
    rw [Sim.portal?_setAgent] at hp''
    have hq : ∃ q, s.portal? pt'' = some q ∧ j ∈ q.queue := by
      by_cases hpt : pt'' = pt
      · subst hpt
        rw [Sim.portal?_setPortal_self hp] at hp''
        obtain rfl := Option.some.inj hp''
        exact ⟨p, hp, hj⟩
      · rw [Sim.portal?_setPortal_ne _ _ _ hpt] at hp''
        exact ⟨p'', hp'', hj⟩
    obtain ⟨q, hq1, hq2⟩ := hq
    have hji : j ≠ i := fun h => hiq pt'' q hq1 (h ▸ hq2)
    obtain ⟨b, hb, hbst, hbpt⟩ := hI.queueMem pt'' q hq1 j hq2
    exact ⟨b, by rw [Sim.agent?_setAgent_ne _ _ hji, Sim.agent?_setPortal]; exact hb,
      hbst, hbpt⟩
  · intro pt'' p'' hp''
    rw [Sim.portal?_setAgent] at hp''
    by_cases hpt : pt'' = pt
    · subst hpt
      rw [Sim.portal?_setPortal_self hp] at hp''
      obtain rfl := Option.some.inj hp''
      exact hI.queueNodup pt'' p hp
    · rw [Sim.portal?_setPortal_ne _ _ _ hpt] at hp''
      exact hI.queueNodup pt'' p'' hp''
  · intro pt'' p'' hp'' hocc''
    rw [Sim.portal?_setAgent] at hp''
    by_cases hpt : pt'' = pt
    · subst hpt
      rw [Sim.portal?_setPortal_self hp] at hp''
      obtain rfl := Option.some.inj hp''
      refine ⟨i, a', Sim.agent?_setAgent_self _ hta, h'st, h'pt, ?_⟩
      intro j b hb hbst hbpt
      by_cases hj : j = i
      · exact hj
      · rw [Sim.agent?_setAgent_ne _ _ hj, Sim.agent?_setPortal] at hb
        exact absurd ⟨hbst, hbpt⟩ (hI.occupiedNone pt'' p hp hocc j b hb)
    · rw [Sim.portal?_setPortal_ne _ _ _ hpt] at hp''
      obtain ⟨w, aw, hw, hwst, hwpt, huniq⟩ := hI.occupiedSome pt'' p'' hp'' hocc''
      have hwi : w ≠ i := by
        intro h
        subst h
        rw [ha] at hw
        obtain rfl := Option.some.inj hw
        exact haT (by rw [hwst]; exact isTransit_transitState pt''.2)
      refine ⟨w, aw, by rw [Sim.agent?_setAgent_ne _ _ hwi, Sim.agent?_setPortal]; exact hw,
        hwst, hwpt, ?_⟩
      intro j b hb hbst hbpt
      by_cases hj : j = i
      · subst hj
        rw [Sim.agent?_setAgent_self _ hta] at hb
        obtain rfl := Option.some.inj hb
        rw [h'pt] at hbpt
        exact absurd (Option.some.inj hbpt).symm hpt
      · rw [Sim.agent?_setAgent_ne _ _ hj, Sim.agent?_setPortal] at hb
        exact huniq j b hb hbst hbpt
  · intro pt'' p'' hp'' hocc'' j b hb hcontra
    rw [Sim.portal?_setAgent] at hp''
    by_cases hpt : pt'' = pt
    · subst hpt
      rw [Sim.portal?_setPortal_self hp] at hp''
      obtain rfl := Option.some.inj hp''
      exact absurd hocc'' (by simp)
    · rw [Sim.portal?_setPortal_ne _ _ _ hpt] at hp''
      by_cases hj : j = i
      · subst hj
        rw [Sim.agent?_setAgent_self _ hta] at hb
        obtain rfl := Option.some.inj hb
        rw [h'pt] at hcontra
        exact absurd (Option.some.inj hcontra.2).symm hpt
      · rw [Sim.agent?_setAgent_ne _ _ hj, Sim.agent?_setPortal] at hb
        exact hI.occupiedNone pt'' p'' hp'' hocc'' j b hb hcontra

lemma inv_release {s : Sim} {i : ℕ} {a a' : Agent} {pt : PortalRef} {p : Portal} (hI : Inv s)
    (ha : s.agent? i = some a) (hp : s.portal? pt = some p)
    (hast : a.state = transitState pt.2) (hapt : a.portalTarget = some pt)
    (h'T : ¬ isTransit a'.state)
    (hOk : AgentOk s.departments.length a') :
    Inv ((s.setPortal pt { p with isOccupied := false }).setAgent i a') := by
  have haT : isTransit a.state := by rw [hast]; exact isTransit_transitState pt.2
  have haW : ¬ isWaiting a.state := not_isWaiting_of_isTransit haT
  have hiq := not_mem_queue_of_not_waiting hI ha haW
  have hpocc : p.isOccupied = true := by
    cases hb : p.isOccupied
    · exact absurd ⟨hast, hapt⟩ (hI.occupiedNone pt p hp hb i a ha)
    · rfl
  obtain ⟨w, aw, hw, hwst, hwpt, huniq⟩ := hI.occupiedSome pt p hp hpocc
  have hiw : i = w := huniq i a ha hast hapt
  have hta : (s.setPortal pt { p with isOccupied := false }).agent? i = some a := by
    rw [Sim.agent?_setPortal]; exact ha
  constructor
  · intro j b hb
    simp only [Sim.departments_setAgent, Sim.length_departments_setPortal]
    by_cases hj : j = i
    · subst hj
      rw [Sim.agent?_setAgent_self _ hta] at hb
      obtain rfl := Option.some.inj hb
      exact hOk
    · rw [Sim.agent?_setAgent_ne _ _ hj, Sim.agent?_setPortal] at hb
      exact hI.agentOk j b hb
  · intro pt'' p'' hp'' j hj
    rw [Sim.portal?_setAgent] at hp''
    have hq : ∃ q, s.portal? pt'' = some q ∧ j ∈ q.queue := by
      by_cases hpt : pt'' = pt
      · subst hpt
        rw [Sim.portal?_setPortal_self hp] at hp''
        obtain rfl := Option.some.inj hp''
        exact ⟨p, hp, hj⟩
      · rw [Sim.portal?_setPortal_ne _ _ _ hpt] at hp''
        exact ⟨p'', hp'', hj⟩
    obtain ⟨q, hq1, hq2⟩ := hq
    have hji : j ≠ i := fun h => hiq pt'' q hq1 (h ▸ hq2)
    obtain ⟨b, hb, hbst, hbpt⟩ := hI.queueMem pt'' q hq1 j hq2
    exact ⟨b, by rw [Sim.agent?_setAgent_ne _ _ hji, Sim.agent?_setPortal]; exact hb,
      hbst, hbpt⟩
  · intro pt'' p'' hp''
    rw [Sim.portal?_setAgent] at hp''
    by_cases hpt : pt'' = pt
    · subst hpt
      rw [Sim.portal?_setPortal_self hp] at hp''
      obtain rfl := Option.some.inj hp''
      exact hI.queueNodup pt'' p hp
    · rw [Sim.portal?_setPortal_ne _ _ _ hpt] at hp''
      exact hI.queueNodup pt'' p'' hp''
  · intro pt'' p'' hp'' hocc''
    rw [Sim.portal?_setAgent] at hp''
    by_cases hpt : pt'' = pt
    · subst hpt
      rw [Sim.portal?_setPortal_self hp] at hp''
      obtain rfl := Option.some.inj hp''
      exact absurd hocc'' (by simp)
    · rw [Sim.portal?_setPortal_ne _ _ _ hpt] at hp''
      obtain ⟨w', aw', hw', hwst', hwpt', huniq'⟩ := hI.occupiedSome pt'' p'' hp'' hocc''
      have hwi : w' ≠ i := by
        intro h
        subst h
        rw [ha] at hw'
        obtain rfl := Option.some.inj hw'
        rw [hapt] at hwpt'
        exact absurd (Option.some.inj hwpt').symm hpt
      refine ⟨w', aw', by rw [Sim.agent?_setAgent_ne _ _ hwi, Sim.agent?_setPortal]; exact hw',
        hwst', hwpt', ?_⟩
      intro j b hb hbst hbpt
      by_cases hj : j = i
      · subst hj
        rw [Sim.agent?_setAgent_self _ hta] at hb
        obtain rfl := Option.some.inj hb
        exact absurd (show isTransit a'.state by
          rw [hbst]; exact isTransit_transitState pt''.2) h'T
      · rw [Sim.agent?_setAgent_ne _ _ hj, Sim.agent?_setPortal] at hb
        exact huniq' j b hb hbst hbpt
  · intro pt'' p'' hp'' hocc'' j b hb hcontra
    rw [Sim.portal?_setAgent] at hp''
    by_cases hj : j = i
    · subst hj
      rw [Sim.agent?_setAgent_self _ hta] at hb
      obtain rfl := Option.some.inj hb
      exact h'T (by rw [hcontra.1]; exact isTransit_transitState pt''.2)
    · rw [Sim.agent?_setAgent_ne _ _ hj, Sim.agent?_setPortal] at hb
      by_cases hpt : pt'' = pt
      · subst hpt
        rw [Sim.portal?_setPortal_self hp] at hp''
        obtain rfl := Option.some.inj hp''
        exact hj ((huniq j b hb hcontra.1 hcontra.2).trans hiw.symm)
      · rw [Sim.portal?_setPortal_ne _ _ _ hpt] at hp''
        exact hI.occupiedNone pt'' p'' hp'' hocc'' j b hb hcontra


lemma inv_promote {s : Sim} {pt : PortalRef} {p : Portal} {j : ℕ} {rest : List ℕ} {b b' : Agent}
    (hI : Inv s) (hp : s.portal? pt = some p) (hocc : p.isOccupied = false)
    (hq : p.queue = j :: rest) (hb : s.agent? j = some b)
    (h'st : b'.state = transitState pt.2) (h'td : b'.targetDepartment = b.targetDepartment)
    (h'pt : b'.portalTarget = b.portalTarget) :
    Inv ((s.setPortal pt { p with queue := rest, isOccupied := true }).setAgent j b') := by
  have hjq : j ∈ p.queue := by rw [hq]; exact List.mem_cons_self j rest
  obtain ⟨b0, hb0, hbst, hbpt⟩ := hI.queueMem pt p hp j hjq
  rw [hb] at hb0
  obtain rfl := Option.some.inj hb0
  have hnodup := hI.queueNodup pt p hp
  rw [hq, List.nodup_cons] at hnodup
  have h'T : isTransit b'.state := by rw [h'st]; exact isTransit_transitState pt.2
  have h'ptv : b'.portalTarget = some pt := by rw [h'pt]; exact hbpt
  have hbW : isWaiting b.state := by rw [hbst]; exact isWaiting_waitState pt.2
  have hbT : ¬ isTransit b.state := by rw [hbst]; exact not_isTransit_waitState pt.2
  have hOk' : AgentOk s.departments.length b' := by
    have hOkb := hI.agentOk j b hb
    unfold AgentOk at hOkb ⊢
    cases pe : pt.2 with
    | false =>
      have hbst' : b.state = .WAITING_EXIT := by rw [hbst, pe]; rfl
      have h'st' : b'.state = .EXITING := by rw [h'st, pe]; rfl
      rw [hbst'] at hOkb
      rw [h'st', h'td, h'pt]
      exact hOkb
    | true =>
      have hbst' : b.state = .WAITING_ENTRY := by rw [hbst, pe]; rfl
      have h'st' : b'.state = .ENTERING := by rw [h'st, pe]; rfl
      rw [hbst'] at hOkb
      rw [h'st', h'td, h'pt]
      exact hOkb
  have hjother : ∀ pt' q, pt' ≠ pt → s.portal? pt' = some q → j ∉ q.queue := by
    intro pt' q hne hq' hmem
    obtain ⟨b2, hb2, _, hb2pt⟩ := hI.queueMem pt' q hq' j hmem
    rw [hb] at hb2
    obtain rfl := Option.some.inj hb2
    rw [hbpt] at hb2pt
    exact hne (Option.some.inj hb2pt).symm
  have hta : (s.setPortal pt { p with queue := rest, isOccupied := true }).agent? j = some b := by
    rw [Sim.agent?_setPortal]; exact hb
  constructor
  · intro j2 b2 hb2
    simp only [Sim.departments_setAgent, Sim.length_departments_setPortal]
    by_cases hj2 : j2 = j
    · subst hj2
      rw [Sim.agent?_setAgent_self _ hta] at hb2
      obtain rfl := Option.some.inj hb2
      exact hOk'
    · rw [Sim.agent?_setAgent_ne _ _ hj2, Sim.agent?_setPortal] at hb2
      exact hI.agentOk j2 b2 hb2
  · intro pt'' p'' hp'' j2 hj2
    rw [Sim.portal?_setAgent] at hp''
    by_cases hpt : pt'' = pt
    · subst hpt
      rw [Sim.portal?_setPortal_self hp] at hp''
      obtain rfl := Option.some.inj hp''
      have hj2rest : j2 ∈ rest := hj2
      have hj2j : j2 ≠ j := fun h => hnodup.1 (h ▸ hj2rest)
      have hj2old : j2 ∈ p.queue := by rw [hq]; exact List.mem_cons_of_mem j hj2rest
      obtain ⟨b2, hb2, hb2st, hb2pt⟩ := hI.queueMem pt'' p hp j2 hj2old
      exact ⟨b2, by rw [Sim.agent?_setAgent_ne _ _ hj2j, Sim.agent?_setPortal]; exact hb2,
        hb2st, hb2pt⟩
    · rw [Sim.portal?_setPortal_ne _ _ _ hpt] at hp''
      have hj2j : j2 ≠ j := fun h => hjother pt'' p'' hpt hp'' (h ▸ hj2)
      obtain ⟨b2, hb2, hb2st, hb2pt⟩ := hI.queueMem pt'' p'' hp'' j2 hj2
      exact ⟨b2, by rw [Sim.agent?_setAgent_ne _ _ hj2j, Sim.agent?_setPortal]; exact hb2,
        hb2st, hb2pt⟩
  · intro pt'' p'' hp''
    rw [Sim.portal?_setAgent] at hp''
    by_cases hpt : pt'' = pt
    · subst hpt
      rw [Sim.portal?_setPortal_self hp] at hp''
      obtain rfl := Option.some.inj hp''
      exact hnodup.2
    · rw [Sim.portal?_setPortal_ne _ _ _ hpt] at hp''
      exact hI.queueNodup pt'' p'' hp''
  · intro pt'' p'' hp'' hocc''
    rw [Sim.portal?_setAgent] at hp''
    by_cases hpt : pt'' = pt
    · subst hpt
      rw [Sim.portal?_setPortal_self hp] at hp''
      obtain rfl := Option.some.inj hp''
      refine ⟨j, b', Sim.agent?_setAgent_self _ hta, h'st, h'ptv, ?_⟩
      intro j2 b2 hb2 hb2st hb2pt
      by_cases hj2 : j2 = j
      · exact hj2
      · rw [Sim.agent?_setAgent_ne _ _ hj2, Sim.agent?_setPortal] at hb2
        exact absurd ⟨hb2st, hb2pt⟩ (hI.occupiedNone pt'' p hp hocc j2 b2 hb2)
    · rw [Sim.portal?_setPortal_ne _ _ _ hpt] at hp''
      obtain ⟨w, aw, hw, hwst, hwpt, huniq⟩ := hI.occupiedSome pt'' p'' hp'' hocc''
      have hwj : w ≠ j := by
        intro h
        subst h
        rw [hb] at hw
        obtain rfl := Option.some.inj hw
        exact hbT (by rw [hwst]; exact isTransit_transitState pt''.2)
      refine ⟨w, aw, by rw [Sim.agent?_setAgent_ne _ _ hwj, Sim.agent?_setPortal]; exact hw,
        hwst, hwpt, ?_⟩
      intro j2 b2 hb2 hb2st hb2pt
      by_cases hj2 : j2 = j
      · subst hj2
        rw [Sim.agent?_setAgent_self _ hta] at hb2
        obtain rfl := Option.some.inj hb2
        rw [h'ptv] at hb2pt
        exact absurd (Option.some.inj hb2pt).symm hpt
      · rw [Sim.agent?_setAgent_ne _ _ hj2, Sim.agent?_setPortal] at hb2
        exact huniq j2 b2 hb2 hb2st hb2pt
  · intro pt'' p'' hp'' hocc'' j2 b2 hb2 hcontra
    rw [Sim.portal?_setAgent] at hp''
    by_cases hpt : pt'' = pt
    · subst hpt
      rw [Sim.portal?_setPortal_self hp] at hp''
      obtain rfl := Option.some.inj hp''
      exact absurd hocc'' (by simp)
    · rw [Sim.portal?_setPortal_ne _ _ _ hpt] at hp''
      by_cases hj2 : j2 = j
      · subst hj2
        rw [Sim.agent?_setAgent_self _ hta] at hb2
        obtain rfl := Option.some.inj hb2
        rw [h'ptv] at hcontra
        exact absurd (Option.some.inj hcontra.2).symm hpt
      · rw [Sim.agent?_setAgent_ne _ _ hj2, Sim.agent?_setPortal] at hb2
        exact hI.occupiedNone pt'' p'' hp'' hocc'' j2 b2 hb2 hcontra


lemma inv_processQueueStep {s : Sim} (k : ℕ) (e : Bool) (hI : Inv s) :
    Inv (processQueueStep s k e) := by
  unfold processQueueStep
  cases hp : s.portal? (k, e) with
  | none => exact hI
  | some p =>
    simp only []
    by_cases hocc : p.isOccupied = true
    · rw [if_pos hocc]
      exact hI
    · rw [if_neg hocc]
      have hocc' : p.isOccupied = false := by
        cases hb : p.isOccupied
        · rfl
        · exact absurd hb hocc
      cases hq : p.queue with
      | nil => exact hI
      | cons j rest =>
        simp only [hq]
        have hjq : j ∈ p.queue := by rw [hq]; exact List.mem_cons_self j rest
        obtain ⟨b, hb, hbst, hbpt⟩ := hI.queueMem (k, e) p hp j hjq
        rw [hb]
        simp only []
        rw [if_pos hbst]
        exact inv_promote hI hp hocc' hq hb rfl rfl rfl

lemma inv_processPortalQueues {s : Sim} (hI : Inv s) : Inv (processPortalQueues s) := by
  unfold processPortalQueues
  have hfold : ∀ (L : List ℕ) (t : Sim), Inv t →
      Inv (L.foldl (fun s1 k => processQueueStep (processQueueStep s1 k true) k false) t) := by
    intro L
    induction L with
    | nil => intro t ht; exact ht
    | cons x xs ih =>
      intro t ht
      exact ih _ (inv_processQueueStep x false (inv_processQueueStep x true ht))
  exact hfold _ s hI


lemma skeletonEq_foldl {α : Type} (step : Sim → α → Sim)
    (hstep : ∀ t x, SkeletonEq t (step t x)) (L : List α) :
    ∀ t, SkeletonEq t (L.foldl step t) := by
  induction L with
  | nil => intro t; exact skeletonEq_refl t
  | cons x xs ih => intro t; exact skeletonEq_trans (hstep t x) (ih (step t x))

lemma skeletonEq_setAgent2_core {s : Sim} {i j : ℕ} {a b : Agent} (a' b' : Agent)
    (ha : s.agent? i = some a) (hb : s.agent? j = some b)
    (hca : a'.core = a.core) (hcb : b'.core = b.core) :
    SkeletonEq s ((s.setAgent i a').setAgent j b') := by
  refine ⟨rfl, fun j2 => ?_⟩
  by_cases hj2 : j2 = j
  · subst hj2
    have hsome : ∃ c, (s.setAgent i a').agent? j2 = some c := by
      by_cases hji : j2 = i
      · subst hji
        exact ⟨a', Sim.agent?_setAgent_self _ ha⟩
      · exact ⟨b, by rw [Sim.agent?_setAgent_ne _ _ hji]; exact hb⟩
    obtain ⟨c, hc⟩ := hsome
    rw [Sim.agent?_setAgent_self _ hc, hb]
    simp [hcb]
  · rw [Sim.agent?_setAgent_ne _ _ hj2]
    by_cases hji : j2 = i
    · subst hji
      rw [Sim.agent?_setAgent_self _ ha, ha]
      simp [hca]
    · rw [Sim.agent?_setAgent_ne _ _ hji]

lemma skeletonEq_pairCollisionStep (s : Sim) (i j : ℕ) :
    SkeletonEq s (pairCollisionStep s i j) := by
  unfold pairCollisionStep
  cases ha : s.agent? i with
  | none => exact skeletonEq_refl s
  | some a =>
    cases hb : s.agent? j with
    | none => exact skeletonEq_refl s
    | some b =>
      simp only []
      split
      · exact skeletonEq_refl s
      · split
        · exact skeletonEq_setAgent2_core _ _ ha hb rfl rfl
        · exact skeletonEq_refl s

lemma skeletonEq_handleAgentAgentCollisions (s : Sim) :
    SkeletonEq s (handleAgentAgentCollisions s) := by
  unfold handleAgentAgentCollisions
  exact skeletonEq_foldl _
    (fun t x => skeletonEq_foldl _ (fun t2 y => skeletonEq_pairCollisionStep t2 x y) _ t) _ s


lemma waitVelOk_of_not_waiting {a : Agent} (h : ¬ isWaiting a.state) : WaitVelOk a :=
  fun hw => absurd hw h

lemma inv_stepWaiting (i : ℕ) {s : Sim} {a : Agent} (hI : Inv s) (ha : s.agent? i = some a) :
    Inv (stepWaiting i a s) ∧
      ∀ a', (stepWaiting i a s).agent? i = some a' → WaitVelOk a' := by
  constructor
  · exact inv_skeletonEq (skeletonEq_setAgent_core _ ha rfl) hI
  · intro a' ha'
    unfold stepWaiting at ha'
    rw [Sim.agent?_setAgent_self _ ha] at ha'
    obtain rfl := Option.some.inj ha'
    intro _
    rfl

lemma inv_stepIdle (o : Oracle) (delta : ℚ) (i : ℕ) {s : Sim} {a : Agent} (hI : Inv s)
    (ha : s.agent? i = some a) (hst : a.state = .IDLE) :
    Inv (stepIdle o delta i a s) ∧
      ∀ a', (stepIdle o delta i a s).agent? i = some a' → WaitVelOk a' := by
  have hOk := hI.agentOk i a ha
  unfold AgentOk at hOk
  rw [hst] at hOk
  obtain ⟨hprev, hprevD⟩ := hOk
  have haW : ¬ isWaiting a.state := by rw [hst]; simp [isWaiting]
  have haT : ¬ isTransit a.state := by rw [hst]; simp [isTransit]
  rcases hprev with h | h | h
  all_goals simp only [stepIdle, h, Option.getD_none, Option.getD_some]
  all_goals repeat' split
  all_goals refine ⟨?_, fun a' ha' => ?_⟩
  all_goals try (refine inv_skeletonEq (skeletonEq_setAgent_core _ ha ?_) hI
                 simp [Agent.core, h]
                 done)
  all_goals try (rw [Sim.agent?_setAgent_self _ ha] at ha'
                 obtain rfl := Option.some.inj ha'
                 exact waitVelOk_of_not_waiting (by simp [isWaiting, hst]))
  all_goals refine inv_setAgent_benign hI ha haW haT (by simp [isTransit]) ?_
  all_goals first
    | (simp [AgentOk]; done)
    | (simp [AgentOk]
       obtain ⟨k, hk, htd⟩ := hprevD h
       exact ⟨k, hk, htd⟩)


lemma inv_stepWandering (o : Oracle) (delta : ℚ) (i : ℕ) {s : Sim} {a : Agent} (hI : Inv s)
    (ha : s.agent? i = some a) (hst : a.state = .WANDERING) :
    Inv (stepWandering o delta i a s) ∧
      ∀ a', (stepWandering o delta i a s).agent? i = some a' → WaitVelOk a' := by
  have haW : ¬ isWaiting a.state := by rw [hst]; simp [isWaiting]
  have haT : ¬ isTransit a.state := by rw [hst]; simp [isTransit]
  simp only [stepWandering]
  repeat' split
  all_goals refine ⟨?_, fun a' ha' => ?_⟩
  all_goals try (rw [Sim.agent?_setAgent_self _ ha] at ha'
                 obtain rfl := Option.some.inj ha'
                 exact waitVelOk_of_not_waiting (by simp [isWaiting, hst]))
  all_goals try (rw [ha] at ha'
                 obtain rfl := Option.some.inj ha'
                 exact waitVelOk_of_not_waiting (by simp [isWaiting, hst]))
  all_goals try exact hI
  all_goals refine inv_setAgent_benign hI ha haW haT (by simp [isTransit, hst]) ?_
  all_goals first
    | (simp [AgentOk, hst]; done)
    | (simp [AgentOk]
       exact Sim.dept?_lt_length (by assumption))


lemma inv_stepGoingToDept (i : ℕ) {s : Sim} {a : Agent} (hI : Inv s)
    (ha : s.agent? i = some a) (hst : a.state = .GOING_TO_DEPT) :
    Inv (stepGoingToDept i a s) ∧
      ∀ a', (stepGoingToDept i a s).agent? i = some a' → WaitVelOk a' := by
  have hOk := hI.agentOk i a ha
  unfold AgentOk at hOk
  rw [hst] at hOk
  obtain ⟨k, hk, htd, hpt⟩ := hOk
  have haW : ¬ isWaiting a.state := by rw [hst]; simp [isWaiting]
  have haT : ¬ isTransit a.state := by rw [hst]; simp [isTransit]
  obtain ⟨p, hp⟩ := Sim.portal?_eq_some_of_lt true hk
  have hta : ∀ q : Portal, (s.setPortal (k, true) q).agent? i = some a := by
    intro q
    rw [Sim.agent?_setPortal]
    exact ha
  simp only [stepGoingToDept, hpt, htd, hp]
  by_cases hdist : a.position.distanceTo p.worldPos < PORTAL_THRESHOLD
  · rw [if_pos hdist]
    by_cases hocc : p.isOccupied = true
    · rw [if_pos hocc]
      refine ⟨inv_enqueue hI ha hp haW haT rfl rfl (by exact ⟨k, hk, rfl, rfl⟩),
        fun a' ha' => ?_⟩
      rw [Sim.agent?_setAgent_self _ (hta _)] at ha'
      obtain rfl := Option.some.inj ha'
      intro _
      rfl
    · rw [if_neg hocc]
      have hocc' : p.isOccupied = false := by
        cases hb : p.isOccupied
        · rfl
        · exact absurd hb hocc
      refine ⟨inv_acquire hI ha hp hocc' haW haT rfl rfl (by exact ⟨k, hk, rfl, rfl⟩),
        fun a' ha' => ?_⟩
      rw [Sim.agent?_setAgent_self _ (hta _)] at ha'
      obtain rfl := Option.some.inj ha'
      exact waitVelOk_of_not_waiting (by simp [isWaiting])
  · rw [if_neg hdist]
    refine ⟨inv_skeletonEq (skeletonEq_setAgent_core _ ha (by simp [Agent.core, hpt, htd])) hI,
      fun a' ha' => ?_⟩
    rw [Sim.agent?_setAgent_self _ ha] at ha'
    obtain rfl := Option.some.inj ha'
    exact waitVelOk_of_not_waiting (by simp [isWaiting, hst])

lemma inv_stepGoingToExit (i : ℕ) {s : Sim} {a : Agent} (hI : Inv s)
    (ha : s.agent? i = some a) (hst : a.state = .GOING_TO_EXIT) :
    Inv (stepGoingToExit i a s) ∧
      ∀ a', (stepGoingToExit i a s).agent? i = some a' → WaitVelOk a' := by
  have hOk := hI.agentOk i a ha
  unfold AgentOk at hOk
  rw [hst] at hOk
  obtain ⟨k, hk, htd, hpt⟩ := hOk
  have haW : ¬ isWaiting a.state := by rw [hst]; simp [isWaiting]
  have haT : ¬ isTransit a.state := by rw [hst]; simp [isTransit]
  obtain ⟨p, hp⟩ := Sim.portal?_eq_some_of_lt false hk
  have hta : ∀ q : Portal, (s.setPortal (k, false) q).agent? i = some a := by
    intro q
    rw [Sim.agent?_setPortal]
    exact ha
  simp only [stepGoingToExit, hpt, htd, hp]
  by_cases hdist : a.position.distanceTo p.worldPos < PORTAL_THRESHOLD
  · rw [if_pos hdist]
    by_cases hocc : p.isOccupied = true
    · rw [if_pos hocc]
      refine ⟨inv_enqueue hI ha hp haW haT rfl rfl (by exact ⟨k, hk, rfl, rfl⟩),
        fun a' ha' => ?_⟩
      rw [Sim.agent?_setAgent_self _ (hta _)] at ha'
      obtain rfl := Option.some.inj ha'
      intro _
      rfl
    · rw [if_neg hocc]
      have hocc' : p.isOccupied = false := by
        cases hb : p.isOccupied
        · rfl
        · exact absurd hb hocc
      refine ⟨inv_acquire hI ha hp hocc' haW haT rfl rfl (by exact ⟨k, hk, rfl, rfl⟩),
        fun a' ha' => ?_⟩
      rw [Sim.agent?_setAgent_self _ (hta _)] at ha'
      obtain rfl := Option.some.inj ha'
      exact waitVelOk_of_not_waiting (by simp [isWaiting])
  · rw [if_neg hdist]
    refine ⟨inv_skeletonEq (skeletonEq_setAgent_core _ ha (by simp [Agent.core, hpt, htd])) hI,
      fun a' ha' => ?_⟩
    rw [Sim.agent?_setAgent_self _ ha] at ha'
    obtain rfl := Option.some.inj ha'
    exact waitVelOk_of_not_waiting (by simp [isWaiting, hst])


lemma inv_stepEntering (o : Oracle) (i : ℕ) {s : Sim} {a : Agent} (hI : Inv s)
    (ha : s.agent? i = some a) (hst : a.state = .ENTERING) :
    Inv (stepEntering o i a s) ∧
      ∀ a', (stepEntering o i a s).agent? i = some a' → WaitVelOk a' := by
  have hOk := hI.agentOk i a ha
  unfold AgentOk at hOk
  rw [hst] at hOk
  obtain ⟨k, hk, htd, hpt⟩ := hOk
  obtain ⟨p, hp⟩ := Sim.portal?_eq_some_of_lt true hk
  obtain ⟨d, hd⟩ := Sim.dept?_eq_some_of_lt hk
  have hta : ∀ q : Portal, (s.setPortal (k, true) q).agent? i = some a := by
    intro q
    rw [Sim.agent?_setPortal]
    exact ha
  simp only [stepEntering, hpt, htd, hp, hd]
  repeat' split
  all_goals refine ⟨?_, fun a' ha' => ?_⟩
  all_goals try (rw [Sim.agent?_setAgent_self _ (hta _)] at ha'
                 obtain rfl := Option.some.inj ha'
                 exact waitVelOk_of_not_waiting (by simp [isWaiting]))
  all_goals try (rw [ha] at ha'
                 obtain rfl := Option.some.inj ha'
                 exact waitVelOk_of_not_waiting (by simp [isWaiting, hst]))
  all_goals try exact hI
  all_goals exact inv_release hI ha hp hst hpt (by simp [isTransit]) (by exact ⟨k, hk, rfl⟩)

lemma inv_stepExiting (o : Oracle) (i : ℕ) {s : Sim} {a : Agent} (hI : Inv s)
    (ha : s.agent? i = some a) (hst : a.state = .EXITING) :
    Inv (stepExiting o i a s) ∧
      ∀ a', (stepExiting o i a s).agent? i = some a' → WaitVelOk a' := by
  have hOk := hI.agentOk i a ha
  unfold AgentOk at hOk
  rw [hst] at hOk
  obtain ⟨k, hk, htd, hpt⟩ := hOk
  obtain ⟨p, hp⟩ := Sim.portal?_eq_some_of_lt false hk
  have hta : ∀ q : Portal, (s.setPortal (k, false) q).agent? i = some a := by
    intro q
    rw [Sim.agent?_setPortal]
    exact ha
  simp only [stepExiting, hpt, htd, hp]
  repeat' split
  all_goals refine ⟨?_, fun a' ha' => ?_⟩
  all_goals try (rw [Sim.agent?_setAgent_self _ (hta _)] at ha'
                 obtain rfl := Option.some.inj ha'
                 exact waitVelOk_of_not_waiting (by simp [isWaiting]))
  all_goals try (rw [ha] at ha'
                 obtain rfl := Option.some.inj ha'
                 exact waitVelOk_of_not_waiting (by simp [isWaiting, hst]))
  all_goals try exact hI
  all_goals exact inv_release hI ha hp hst hpt (by simp [isTransit]) (by simp [AgentOk])


lemma inv_stepInsideDept (o : Oracle) (delta : ℚ) (i : ℕ) {s : Sim} {a : Agent} (hI : Inv s)
    (ha : s.agent? i = some a) (hst : a.state = .INSIDE_DEPT) :
    Inv (stepInsideDept o delta i a s) ∧
      ∀ a', (stepInsideDept o delta i a s).agent? i = some a' → WaitVelOk a' := by
  have hOk := hI.agentOk i a ha
  unfold AgentOk at hOk
  rw [hst] at hOk
  obtain ⟨k, hk, htd⟩ := hOk
  have haW : ¬ isWaiting a.state := by rw [hst]; simp [isWaiting]
  have haT : ¬ isTransit a.state := by rw [hst]; simp [isTransit]
  obtain ⟨d, hd⟩ := Sim.dept?_eq_some_of_lt hk
  simp only [stepInsideDept, htd, hd]
  repeat' split
  all_goals refine ⟨?_, fun a' ha' => ?_⟩
  all_goals try (rw [Sim.agent?_setAgent_self _ ha] at ha'
                 obtain rfl := Option.some.inj ha'
                 exact waitVelOk_of_not_waiting (by simp [isWaiting, hst]))
  all_goals refine inv_setAgent_benign hI ha haW haT (by simp [isTransit, hst]) ?_
  all_goals first
    | (simp [AgentOk, hst]; done)
    | (simp [AgentOk, hst]
       exact hk)
    | (simp [AgentOk, hst]
       simp_all)


lemma inv_updateAgentState (o : Oracle) (delta : ℚ) {s : Sim} (i : ℕ) (hI : Inv s) :
    Inv (updateAgentState o delta s i) ∧
      ∀ a', (updateAgentState o delta s i).agent? i = some a' → WaitVelOk a' := by
  unfold updateAgentState
  cases ha : s.agent? i with
  | none =>
    refine ⟨hI, fun a' ha' => ?_⟩
    rw [ha] at ha'
    cases ha'
  | some a =>
    simp only []
    cases hst : a.state with
    | WANDERING => exact inv_stepWandering o delta i hI ha hst
    | GOING_TO_DEPT => exact inv_stepGoingToDept i hI ha hst
    | WAITING_ENTRY => exact inv_stepWaiting i hI ha
    | ENTERING => exact inv_stepEntering o i hI ha hst
    | INSIDE_DEPT => exact inv_stepInsideDept o delta i hI ha hst
    | GOING_TO_EXIT => exact inv_stepGoingToExit i hI ha hst
    | WAITING_EXIT => exact inv_stepWaiting i hI ha
    | EXITING => exact inv_stepExiting o i hI ha hst
    | IDLE => exact inv_stepIdle o delta i hI ha hst


lemma inv_updateAgentMovement (f : ℚ) {s : Sim} (i : ℕ) (hI : Inv s)
    (hWV : ∀ a, s.agent? i = some a → WaitVelOk a) :
    Inv (updateAgentMovement f s i) ∧
      ∀ a', (updateAgentMovement f s i).agent? i = some a' → WaitVelOk a' := by
  unfold updateAgentMovement
  cases ha : s.agent? i with
  | none => exact ⟨hI, fun a' ha' => hWV a' ha'⟩
  | some a =>
    simp only []
    constructor
    · refine inv_skeletonEq (skeletonEq_setAgent_core _ ha ?_) hI
      split <;> rfl
    · intro a' ha'
      rw [Sim.agent?_setAgent_self _ ha] at ha'
      by_cases hh : heldState a.state
      · rw [if_pos hh] at ha'
        obtain rfl := Option.some.inj ha'
        intro hw
        exact hWV a ha hw
      · rw [if_neg hh] at ha'
        obtain rfl := Option.some.inj ha'
        intro hw
        exact hWV a ha hw

lemma inv_wallReset {s : Sim} {i : ℕ} {a R : Agent} (hI : Inv s) (ha : s.agent? i = some a)
    (hTG : transitGoalState a.state) (hRst : R.state = .WANDERING) :
    Inv ((releaseHeldPortal a s).setAgent i R) := by
  have hRT : ¬ isTransit R.state := by rw [hRst]; simp [isTransit]
  have hROk : ∀ D, AgentOk D R := by
    intro D
    unfold AgentOk
    rw [hRst]
    trivial
  have hGo : ∀ st : AgentState, st = a.state →
      st = .GOING_TO_DEPT ∨ st = .GOING_TO_EXIT →
      Inv ((releaseHeldPortal a s).setAgent i R) := by
    intro st hsteq hgo
    have hst : a.state = .GOING_TO_DEPT ∨ a.state = .GOING_TO_EXIT := by
      rcases hgo with h | h
      · exact Or.inl (hsteq ▸ h ▸ rfl)
      · exact Or.inr (hsteq ▸ h ▸ rfl)
    have haW : ¬ isWaiting a.state := by rcases hst with h | h <;> rw [h] <;> simp [isWaiting]
    have haT : ¬ isTransit a.state := by rcases hst with h | h <;> rw [h] <;> simp [isTransit]
    have hrel : releaseHeldPortal a s = s := by
      unfold releaseHeldPortal
      cases hpt : a.portalTarget with
      | none => rfl
      | some pt =>
        simp only []
        rw [if_neg]
        rcases hst with h | h <;> simp [h]
    rw [hrel]
    exact inv_setAgent_benign hI ha haW haT hRT (hROk _)
  rcases hTG with hst | hst | hst | hst
  · exact hGo _ hst.symm (Or.inl rfl)
  · -- ENTERING
    have hOk := hI.agentOk i a ha
    unfold AgentOk at hOk
    rw [hst] at hOk
    obtain ⟨k, hk, htd, hpt⟩ := hOk
    obtain ⟨p, hp⟩ := Sim.portal?_eq_some_of_lt true hk
    have hast : a.state = transitState (k, true).2 := by rw [hst]; rfl
    have hocc : p.isOccupied = true := by
      cases hb : p.isOccupied
      · exact absurd ⟨hast, hpt⟩ (hI.occupiedNone (k, true) p hp hb i a ha)
      · rfl
    have hrel : releaseHeldPortal a s = s.setPortal (k, true) { p with isOccupied := false } := by
      unfold releaseHeldPortal
      rw [hpt]
      simp only []
      rw [if_pos (by rw [hst]; simp), hp]
      simp only []
      rw [if_pos hocc]
    rw [hrel]
    exact inv_release hI ha hp hast hpt hRT (hROk _)
  · exact hGo _ hst.symm (Or.inr rfl)
  · -- EXITING
    have hOk := hI.agentOk i a ha
    unfold AgentOk at hOk
    rw [hst] at hOk
    obtain ⟨k, hk, htd, hpt⟩ := hOk
    obtain ⟨p, hp⟩ := Sim.portal?_eq_some_of_lt false hk
    have hast : a.state = transitState (k, false).2 := by rw [hst]; rfl
    have hocc : p.isOccupied = true := by
      cases hb : p.isOccupied
      · exact absurd ⟨hast, hpt⟩ (hI.occupiedNone (k, false) p hp hb i a ha)
      · rfl
    have hrel : releaseHeldPortal a s = s.setPortal (k, false) { p with isOccupied := false } := by
      unfold releaseHeldPortal
      rw [hpt]
      simp only []
      rw [if_pos (by rw [hst]; simp), hp]
      simp only []
      rw [if_pos hocc]
    rw [hrel]
    exact inv_release hI ha hp hast hpt hRT (hROk _)


lemma inv_deptCollisionStep (o : Oracle) (i k : ℕ) {s : Sim} (hI : Inv s)
    (hNW : ∀ a, s.agent? i = some a → ¬ isWaiting a.state) :
    Inv (deptCollisionStep o i s k) ∧
      ∀ a', (deptCollisionStep o i s k).agent? i = some a' → ¬ isWaiting a'.state := by
  unfold deptCollisionStep
  cases ha : s.agent? i with
  | none => exact ⟨hI, fun a' ha' => hNW a' ha'⟩
  | some a =>
    cases hd : s.dept? k with
    | none => exact ⟨hI, fun a' ha' => hNW a' ha'⟩
    | some d =>
      cases hray : o.rayHit i k with
      | none => exact ⟨hI, fun a' ha' => hNW a' ha'⟩
      | some hit =>
        obtain ⟨hitP, hitN⟩ := hit
        simp only []
        repeat' split
        all_goals refine ⟨?_, fun a' ha' => ?_⟩
        all_goals try exact hNW a' ha'
        all_goals try exact hI
        all_goals try (rw [Sim.agent?_setAgent_self _ ha] at ha'
                       obtain rfl := Option.some.inj ha'
                       exact hNW a ha)
        all_goals try (rw [Sim.agent?_setAgent_self _
                         (show (releaseHeldPortal a s).agent? i = some a by
                           rw [agent?_releaseHeldPortal]; exact ha)] at ha'
                       obtain rfl := Option.some.inj ha'
                       simp [isWaiting])
        all_goals try (refine inv_skeletonEq (skeletonEq_setAgent_core _ ha ?_) hI
                       rfl)
        all_goals refine inv_wallReset hI ha ?_ rfl
        all_goals have hnw := hNW a ha
        all_goals unfold transitGoalState
        all_goals unfold isWaiting at hnw
        all_goals tauto


lemma inv_foldl_deptCollisionStep (o : Oracle) (i : ℕ) (L : List ℕ) {t : Sim} (hI : Inv t)
    (hNW : ∀ a, t.agent? i = some a → ¬ isWaiting a.state) :
    Inv (L.foldl (deptCollisionStep o i) t) := by
  induction L generalizing t with
  | nil => exact hI
  | cons x xs ih =>
    obtain ⟨h1, h2⟩ := inv_deptCollisionStep o i x hI hNW
    exact ih h1 h2

lemma boundaryBounce_core (a : Agent) : ((boundaryBounce a).1).core = a.core := by
  unfold boundaryBounce
  split <;> (simp only []; split) <;> simp [Agent.core]

lemma lengthSq_velocity_boundaryBounce (a : Agent) :
    ((boundaryBounce a).1).velocity.lengthSq = a.velocity.lengthSq := by
  unfold boundaryBounce
  split <;> (simp only []; split) <;> simp [Vec3.lengthSq, Vec3.dot]

lemma inv_boundaryPhase {s : Sim} {i : ℕ} {a : Agent} (hI : Inv s) (ha : s.agent? i = some a) :
    Inv (boundaryPhase s i a) := by
  unfold boundaryPhase
  simp only []
  split
  · rename_i h
    have hc := boundaryBounce_core a
    have hTG : transitGoalState a.state := by
      rw [← agent_core_state hc]
      exact h.2
    have hrel : releaseHeldPortal (boundaryBounce a).1 s = releaseHeldPortal a s := by
      unfold releaseHeldPortal
      rw [agent_core_pt hc, agent_core_state hc]
    rw [hrel]
    exact inv_wallReset hI ha hTG rfl
  · exact inv_skeletonEq (skeletonEq_setAgent_core _ ha (boundaryBounce_core a)) hI

lemma boundaryPhase_agent {s : Sim} {i : ℕ} {a a2 : Agent} (ha : s.agent? i = some a)
    (h2 : (boundaryPhase s i a).agent? i = some a2) :
    a2.state = .WANDERING ∨ (a2.core = a.core ∧ a2.velocity.lengthSq = a.velocity.lengthSq) := by
  unfold boundaryPhase at h2
  simp only [] at h2
  split at h2
  · rw [Sim.agent?_setAgent_self _
      (show (releaseHeldPortal (boundaryBounce a).1 s).agent? i = some a by
        rw [agent?_releaseHeldPortal]; exact ha)] at h2
    obtain rfl := Option.some.inj h2
    exact Or.inl rfl
  · rw [Sim.agent?_setAgent_self _ ha] at h2
    obtain rfl := Option.some.inj h2
    exact Or.inr ⟨boundaryBounce_core a, lengthSq_velocity_boundaryBounce a⟩

lemma inv_handleAgentEnvironmentCollisions (o : Oracle) {s : Sim} (i : ℕ) (hI : Inv s)
    (hWV : ∀ a, s.agent? i = some a → WaitVelOk a) :
    Inv (handleAgentEnvironmentCollisions o s i) := by
  unfold handleAgentEnvironmentCollisions
  cases ha : s.agent? i with
  | none => exact hI
  | some a =>
    simp only []
    have hI1 : Inv (boundaryPhase s i a) := inv_boundaryPhase hI ha
    cases ha2 : (boundaryPhase s i a).agent? i with
    | none => exact hI1
    | some a2 =>
      simp only []
      split
      · exact hI1
      · rename_i hbig
        refine inv_foldl_deptCollisionStep o i _ hI1 ?_
        intro b hb
        rw [ha2] at hb
        obtain rfl := Option.some.inj hb
        intro hw
        rcases boundaryPhase_agent ha ha2 with hwand | ⟨hc, hlen⟩
        · rw [hwand] at hw
          rcases hw with h | h <;> cases h
        · have hw0 : isWaiting a.state := by rw [← agent_core_state hc]; exact hw
          have hv0 := hWV a ha hw0
          have hzero : a.velocity.lengthSq = 0 := by
            rw [hv0]
            simp [Vec3.lengthSq, Vec3.dot]
          exact hbig (by rw [hlen, hzero]; norm_num [VELOCITY_THRESHOLD_SQ, MODEL_SCALE])


lemma inv_agentSweepStep (o : Oracle) (delta f : ℚ) {s : Sim} (i : ℕ) (hI : Inv s) :
    Inv (agentSweepStep o delta f s i) := by
  unfold agentSweepStep
  obtain ⟨hI1, hWV1⟩ := inv_updateAgentState o delta i hI
  obtain ⟨hI2, hWV2⟩ := inv_updateAgentMovement f i hI1 hWV1
  exact inv_handleAgentEnvironmentCollisions o i hI2 hWV2

lemma inv_sweep_fold (o : Oracle) (delta f : ℚ) (L : List ℕ) {t : Sim} (hI : Inv t) :
    Inv (L.foldl (agentSweepStep o delta f) t) := by
  induction L generalizing t with
  | nil => exact hI
  | cons x xs ih => exact ih (inv_agentSweepStep o delta f x hI)

lemma inv_updateAgents (o : Oracle) (delta : ℚ) {s : Sim} (hI : Inv s) :
    Inv (updateAgents o delta s) := by
  unfold updateAgents
  split
  · exact hI
  · simp only []
    exact inv_processPortalQueues
      (inv_sweep_fold o delta _ _ (inv_skeletonEq (skeletonEq_handleAgentAgentCollisions s) hI))

lemma inv_of_fresh {s : Sim} (h : Fresh s) : Inv s := by
  obtain ⟨hA, hD⟩ := h
  have hAg : ∀ i a, s.agent? i = some a → FreshAgent a := by
    intro i a ha
    exact hA a (List.get?_mem ha)
  have hPt : ∀ pt p, s.portal? pt = some p → ClearPortal p := by
    intro pt p hp
    obtain ⟨d, hd, hpd⟩ := Sim.dept?_of_portal? hp
    have hdm : d ∈ s.departments := List.get?_mem hd
    obtain ⟨he, hx⟩ := hD d hdm
    cases hb : pt.2
    · rw [← hpd]
      simpa [portalOf, hb] using hx
    · rw [← hpd]
      simpa [portalOf, hb] using he
  constructor
  · intro i a ha
    obtain ⟨h1, _, _, _⟩ := hAg i a ha
    unfold AgentOk
    rw [h1]
    trivial
  · intro pt p hp j hj
    rw [(hPt pt p hp).2] at hj
    cases hj
  · intro pt p hp
    rw [(hPt pt p hp).2]
    exact List.nodup_nil
  · intro pt p hp hocc
    rw [(hPt pt p hp).1] at hocc
    cases hocc
  · intro pt p hp hocc j b hb hcontra
    obtain ⟨h1, _, _, _⟩ := hAg j b hb
    have hws := hcontra.1
    rw [h1] at hws
    cases hb2 : pt.2 <;> rw [hb2] at hws <;> simp [transitState] at hws

lemma inv_of_reachable {s : Sim} (h : Reachable s) : Inv s := by
  induction h with
  | init s hf => exact inv_of_fresh hf
  | tick o delta s _ ih => exact inv_updateAgents o delta ih
  | speedChange q s _ ih =>
    exact inv_skeletonEq (show SkeletonEq s { s with speed := q } from ⟨rfl, fun _ => rfl⟩) ih
  | pauseChange b s _ ih =>
    exact inv_skeletonEq (show SkeletonEq s (setPaused b s) from ⟨rfl, fun _ => rfl⟩) ih

/-- **C1.** Portal occupancy exclusivity invariant: in every reachable
simulation state, an occupied portal has exactly one agent in the matching
transit state (`ENTERING` for entry portals, `EXITING` for exit portals)
targeting it, and an unoccupied portal has none. -/
theorem portal_occupancy_exclusivity (s : Sim) (h : Reachable s) : PortalExclusive s := by
  have hI := inv_of_reachable h
  intro pt p hp
  exact ⟨hI.occupiedSome pt p hp, hI.occupiedNone pt p hp⟩

/-- Witness for C1 at the fresh boundary-scenario state. -/
theorem portal_occupancy_exclusivity_witness : PortalExclusive simBoundary :=
  portal_occupancy_exclusivity simBoundary (Reachable.init simBoundary (by decide))

/-! ## C7 witness support: agent-count preservation across a tick -/

lemma length_agents_processQueueStep (s : Sim) (k : ℕ) (e : Bool) :
    (processQueueStep s k e).agents.length = s.agents.length := by
  unfold processQueueStep
  repeat' split
  all_goals simp

lemma length_agents_processPortalQueues (s : Sim) :
    (processPortalQueues s).agents.length = s.agents.length := by
  unfold processPortalQueues
  generalize List.range s.departments.length = L
  induction L generalizing s with
  | nil => rfl
  | cons k L ih =>
    rw [List.foldl_cons, ih, length_agents_processQueueStep, length_agents_processQueueStep]

lemma length_of_skeletonEq {s s' : Sim} (h : SkeletonEq s s') :
    s'.agents.length = s.agents.length := by
  have hiff : ∀ n, (s'.agents.get? n).isSome = (s.agents.get? n).isSome := by
    intro n
    have hm := h.2 n
    cases h1 : s.agent? n with
    | none =>
      cases h2 : s'.agent? n with
      | none =>
        have e1 : s.agents.get? n = none := h1
        have e2 : s'.agents.get? n = none := h2
        rw [e1, e2]
      | some b =>
        rw [h1, h2] at hm
        simp at hm
    | some a =>
      cases h2 : s'.agent? n with
      | none =>
        rw [h1, h2] at hm
        simp at hm
      | some b =>
        have e1 : s.agents.get? n = some a := h1
        have e2 : s'.agents.get? n = some b := h2
        rw [e1, e2]
        rfl
  apply le_antisymm
  · by_contra hlt
    push_neg at hlt
    have h1 : s.agents.get? s.agents.length = none := List.get?_eq_none.mpr le_rfl
    have h2 : (s'.agents.get? s.agents.length).isSome := by
      rw [List.get?_eq_get hlt]
      rfl
    rw [hiff, h1] at h2
    cases h2
  · by_contra hlt
    push_neg at hlt
    have h1 : s'.agents.get? s'.agents.length = none := List.get?_eq_none.mpr le_rfl
    have h2 : (s.agents.get? s'.agents.length).isSome := by
      rw [List.get?_eq_get hlt]
      rfl
    rw [← hiff, h1] at h2
    cases h2

lemma length_agents_updateAgents (o : Oracle) (delta : ℚ) (s : Sim) :
    (updateAgents o delta s).agents.length = s.agents.length := by
  unfold updateAgents
  split
  · rfl
  · simp only []
    rw [length_agents_processPortalQueues, length_agents_sweep_fold,
      length_of_skeletonEq (skeletonEq_handleAgentAgentCollisions s)]

/-- Witness for C7 at the boundary scenario state: the single agent of the
scenario sits at its base floor height after the tick. -/
theorem floor_height_invariant_witness :
    simBoundary.isPaused = false ∧ simBoundary.departments.length ≠ 0 ∧
    ∃ a', (updateAgents defaultOracle 1 simBoundary).agent? 0 = some a' ∧
      a'.position.y = a'.baseHeight := by
  refine ⟨rfl, by norm_num [simBoundary, baselineDepartments], ?_⟩
  have hlen : (updateAgents defaultOracle 1 simBoundary).agents.length = 1 := by
    rw [length_agents_updateAgents]
    rfl
  obtain ⟨a', ha'⟩ : ∃ a', (updateAgents defaultOracle 1 simBoundary).agent? 0 = some a' := by
    cases h0 : (updateAgents defaultOracle 1 simBoundary).agent? 0 with
    | none =>
      have hle : (updateAgents defaultOracle 1 simBoundary).agents.length ≤ 0 :=
        List.get?_eq_none.mp h0
      omega
    | some b => exact ⟨b, rfl⟩
  exact ⟨a', ha',
    (floor_height_invariant defaultOracle 1 simBoundary rfl
      (by norm_num [simBoundary, baselineDepartments])).1 0 a' ha'⟩

end MarketSim
